import Mathlib

/-!
# Material functor execution contexts

A shallow embedding of `Gems/Atom/RPI/Code/Source/RPI.Reflect/Material/MaterialFunctor.cpp`:
the invalidation gate `MaterialFunctor::NeedsProcess`, the property access guard
`CheckPropertyAccess`, `MaterialFunctor::RuntimeContext` and `MaterialFunctor::EditorContext`.

Conventions of the embedding.

* A member function that mutates the object it is called on returns the new object next to
  its C++ return value (`Outcome`).
* `AZ_Error` and `AZ_Assert` are the tracing macros of the engine.  They expand to nothing
  unless `AZ_ENABLE_TRACING` is defined, so every function that contains one takes the build
  flag `tracing` and returns the list of diagnostics it emitted, in order.
* Types that are only declared in headers outside this file (the property value variant, the
  shader option group, the render states, the property layout and collection) are type
  parameters or records of the member functions the file calls on them.
* A call that dereferences a null descriptor pointer, addresses a shader item that is not
  in the collection, or tests a bit outside the width of a bitset has no defined behaviour in
  C++.  The functions that can do so return an `Option`, and `none` stands for such a call.
-/

namespace AZ.RPI

/-! ## Shared vocabulary -/

/-- `AZ::Name`: an interned string, compared by value. -/
abbrev Name := String

/-- One constructor per `AZ_Error` / `AZ_Assert` call site of the file, carrying the
arguments of its format string. -/
inductive Diagnostic where
  /-- line 80: "Shader option '%s' is not owned by this material." -/
  | shaderOptionNotOwned (name : Name)
  /-- line 81: the `AZ_Assert(!didSetOne, ...)` whose condition was false. -/
  | ownershipAssertFailed
  /-- line 94: "Shader option '%s' not found." -/
  | shaderOptionNotFound (name : Name)
  /-- line 342: "Couldn't find metadata for material property: %s." -/
  | propertyMetadataNotFound (propertyId : Name)
  /-- line 354: "Couldn't find metadata for material property group: %s." -/
  | propertyGroupMetadataNotFound (propertyGroupId : Name)
  /-- line 434: "Material functor accessing an unregistered material property '%s'." -/
  | unregisteredPropertyAccess (shown : String)
  deriving DecidableEq, Repr

/-- The macro `AZ_Error(window, false, ...)`: reports when tracing is compiled in. -/
def AZ_Error (tracing : Bool) (d : Diagnostic) : List Diagnostic :=
  if tracing then [d] else []

/-- The macro `AZ_Assert(cond, ...)`: reports when tracing is compiled in and `cond` is false. -/
def AZ_Assert (tracing : Bool) (cond : Bool) (d : Diagnostic) : List Diagnostic :=
  if tracing && !cond then [d] else []

/-- Result of a `bool`-returning member function that may mutate its object. -/
structure Outcome (σ : Type) where
  /-- the C++ return value -/
  result : Bool
  /-- the object after the call -/
  state : σ
  /-- the diagnostics emitted during the call -/
  log : List Diagnostic

/-! ## Dependency set -/

/-- `MaterialPropertyFlags`, an `AZStd::bitset<N>`: the bit pattern as a natural number, bit
`i` being property index `i`.  A bitset of width `N` is a value below `2 ^ N`.  The width is
a constant declared outside this file; the functions that depend on it take it as a
parameter. -/
abbrev MaterialPropertyFlags := Nat

/-- `bitset<N>::test(pos)` on a bitset of width `N`: the bit at position `pos`; `none` when
`pos` is not below the width, an access for which C++ defines no behaviour. -/
def MaterialPropertyFlags.test (N : Nat) (flags : MaterialPropertyFlags) (pos : Nat) :
    Option Bool :=
  if pos < N then some (Nat.testBit flags pos) else none

/-- `bitset::any()`. -/
def MaterialPropertyFlags.any (flags : MaterialPropertyFlags) : Bool :=
  flags != 0

/-- The data member of `MaterialFunctor` this file uses. -/
structure MaterialFunctor where
  m_materialPropertyDependencies : MaterialPropertyFlags
  deriving DecidableEq, Repr

/-- `MaterialFunctor::NeedsProcess` (lines 476-479). -/
def MaterialFunctor.NeedsProcess (self : MaterialFunctor)
    (propertyDirtyFlags : MaterialPropertyFlags) : Bool :=
  MaterialPropertyFlags.any (self.m_materialPropertyDependencies &&& propertyDirtyFlags)

/-- `MaterialFunctor::GetMaterialPropertyDependencies` (lines 481-484). -/
def MaterialFunctor.GetMaterialPropertyDependencies (self : MaterialFunctor) :
    MaterialPropertyFlags :=
  self.m_materialPropertyDependencies

/-! ## Property layout, property collection and the access guard -/

/-- Modelled from the spec: `MaterialPropertyIndex`, an `RHI::Handle` declared outside this
file; `GetIndex()` is the number it wraps, also for a handle that resolves to nothing. -/
structure MaterialPropertyIndex where
  m_index : Nat
  deriving DecidableEq, Repr

/-- `Handle::GetIndex`. -/
def MaterialPropertyIndex.GetIndex (self : MaterialPropertyIndex) : Nat :=
  self.m_index

/-- Modelled from the spec: `MaterialPropertyDescriptor`, declared outside this file, of
which the file reads the name only. -/
structure MaterialPropertyDescriptor where
  m_nameId : Name
  deriving DecidableEq, Repr

/-- `MaterialPropertyDescriptor::GetName`. -/
def MaterialPropertyDescriptor.GetName (self : MaterialPropertyDescriptor) : Name :=
  self.m_nameId

/-- `MaterialPropertiesLayout` is declared outside this file: the record of the two member
functions the file calls on it.  A null descriptor pointer is `none`. -/
structure MaterialPropertiesLayout where
  FindPropertyIndex : Name → MaterialPropertyIndex
  GetPropertyDescriptor : MaterialPropertyIndex → Option MaterialPropertyDescriptor

/-- `MaterialPropertyCollection` is declared outside this file: the record of the two member
functions the file calls on it, over the property value type `V`. -/
structure MaterialPropertyCollection (V : Type) where
  GetMaterialPropertiesLayout : MaterialPropertiesLayout
  GetPropertyValue : MaterialPropertyIndex → V

/-- `CheckPropertyAccess` (lines 428-438), for dependency sets of width `PropertyCountMax`.
The function is `void` and takes its three arguments by reference to const: all it produces
is the diagnostics it emits.  The body is inside `#if defined(AZ_ENABLE_TRACING)`.  It passes
`index.GetIndex()` to `test` unchecked: `none` stands for the call with an index outside the
width of the dependency set. -/
def CheckPropertyAccess (PropertyCountMax : Nat) (tracing : Bool)
    (index : MaterialPropertyIndex) (materialPropertyDependencies : MaterialPropertyFlags)
    (materialPropertiesLayout : MaterialPropertiesLayout) : Option (List Diagnostic) :=
  if tracing then
    match MaterialPropertyFlags.test PropertyCountMax materialPropertyDependencies
        index.GetIndex with
    | none => none
    | some bit =>
      if !bit then
        let propertyDescriptor := materialPropertiesLayout.GetPropertyDescriptor index
        some (AZ_Error tracing (Diagnostic.unregisteredPropertyAccess
          (match propertyDescriptor with
            | some descriptor => descriptor.GetName
            | none => "<unknown>")))
      else some []
  else some []

/-! ## Containers -/

/-- `AZStd::unordered_map<Name, α>`: the entries in the container's iteration order. -/
abbrev unordered_map (α : Type) := List (Name × α)

/-- `unordered_map::find`, giving the mapped value of the entry found (`none` for `end()`). -/
def unordered_map.find {α : Type} : unordered_map α → Name → Option α
  | [], _ => none
  | (k, v) :: rest, key => if k = key then some v else unordered_map.find rest key

/-- Assignment through the pointer `&it->second` that `find` gave for `key`: the mapped
value of the entry found is replaced, every other entry stays. -/
def unordered_map.store {α : Type} : unordered_map α → Name → α → unordered_map α
  | [], _, _ => []
  | (k, v) :: rest, key, w =>
    if k = key then (k, w) :: rest else (k, v) :: unordered_map.store rest key w

/-- `AZStd::unordered_set<Name>`: the elements in the container's iteration order. -/
abbrev unordered_set := List Name

/-- `unordered_set::insert`: nothing happens when the element is already there. -/
def unordered_set.insert (s : unordered_set) (x : Name) : unordered_set :=
  if x ∈ s then s else s ++ [x]

/-! ## Editor context -/

/-- Modelled from the spec: `MaterialPropertyVisibility`, an enum declared outside this
file. -/
inductive MaterialPropertyVisibility where
  | Enabled
  | Disabled
  | Hidden
  deriving DecidableEq, Repr

/-- Modelled from the spec: `MaterialPropertyGroupVisibility`, an enum declared outside this
file. -/
inductive MaterialPropertyGroupVisibility where
  | Enabled
  | Hidden
  deriving DecidableEq, Repr

/-- Modelled from the spec: `MaterialPropertyRange`, declared outside this file: the four
bounds the setters write. -/
structure MaterialPropertyRange (V : Type) where
  m_min : V
  m_max : V
  m_softMin : V
  m_softMax : V
  deriving DecidableEq, Repr

/-- Modelled from the spec: `MaterialPropertyDynamicMetadata`, declared outside this file:
the fields the setters write. -/
structure MaterialPropertyDynamicMetadata (V : Type) where
  m_visibility : MaterialPropertyVisibility
  m_description : String
  m_propertyRange : MaterialPropertyRange V
  deriving DecidableEq, Repr

/-- Modelled from the spec: `MaterialPropertyGroupDynamicMetadata`, declared outside this
file: the field the setter writes. -/
structure MaterialPropertyGroupDynamicMetadata where
  m_visibility : MaterialPropertyGroupVisibility
  deriving DecidableEq, Repr

/-- `MaterialFunctor::EditorContext` (constructor, lines 150-164).  The four containers are
held by reference in C++; here the context carries their contents, so that the context after
a call shows what the call did to them. -/
structure MaterialFunctor.EditorContext (V : Type) where
  m_materialProperties : MaterialPropertyCollection V
  m_propertyMetadata : unordered_map (MaterialPropertyDynamicMetadata V)
  m_propertyGroupMetadata : unordered_map MaterialPropertyGroupDynamicMetadata
  m_updatedPropertiesOut : unordered_set
  m_updatedPropertyGroupsOut : unordered_set
  m_materialPropertyDependencies : MaterialPropertyFlags

namespace MaterialFunctor.EditorContext

variable {V : Type}

/-- `EditorContext::QueryMaterialPropertyMetadata` (lines 337-347): the record found, or
`none` for `nullptr`. -/
def QueryMaterialPropertyMetadata (tracing : Bool) (self : EditorContext V)
    (propertyId : Name) : Option (MaterialPropertyDynamicMetadata V) × List Diagnostic :=
  match unordered_map.find self.m_propertyMetadata propertyId with
  | none => (none, AZ_Error tracing (Diagnostic.propertyMetadataNotFound propertyId))
  | some metadata => (some metadata, [])

/-- `EditorContext::QueryMaterialPropertyGroupMetadata` (lines 349-359). -/
def QueryMaterialPropertyGroupMetadata (tracing : Bool) (self : EditorContext V)
    (propertyGroupId : Name) : Option MaterialPropertyGroupDynamicMetadata × List Diagnostic :=
  match unordered_map.find self.m_propertyGroupMetadata propertyGroupId with
  | none => (none, AZ_Error tracing (Diagnostic.propertyGroupMetadataNotFound propertyGroupId))
  | some metadata => (some metadata, [])

/-- `EditorContext::GetMaterialPropertyMetadata(const Name&)` (lines 166-169). -/
def GetMaterialPropertyMetadata (tracing : Bool) (self : EditorContext V)
    (propertyId : Name) : Option (MaterialPropertyDynamicMetadata V) × List Diagnostic :=
  QueryMaterialPropertyMetadata tracing self propertyId

/-- `EditorContext::GetMaterialPropertyGroupMetadata` (lines 177-180). -/
def GetMaterialPropertyGroupMetadata (tracing : Bool) (self : EditorContext V)
    (propertyId : Name) : Option MaterialPropertyGroupDynamicMetadata × List Diagnostic :=
  QueryMaterialPropertyGroupMetadata tracing self propertyId

/-- `EditorContext::SetMaterialPropertyGroupVisibility` (lines 182-197). -/
def SetMaterialPropertyGroupVisibility (tracing : Bool) (self : EditorContext V)
    (propertyGroupName : Name) (visibility : MaterialPropertyGroupVisibility) :
    Outcome (EditorContext V) :=
  match QueryMaterialPropertyGroupMetadata tracing self propertyGroupName with
  | (none, log) => ⟨false, self, log⟩
  | (some metadata, log) =>
    if metadata.m_visibility != visibility then
      ⟨true,
        { self with
          m_propertyGroupMetadata :=
            unordered_map.store self.m_propertyGroupMetadata propertyGroupName
              { metadata with m_visibility := visibility }
          m_updatedPropertyGroupsOut :=
            unordered_set.insert self.m_updatedPropertyGroupsOut propertyGroupName },
        log⟩
    else ⟨true, self, log⟩

/-- `EditorContext::SetMaterialPropertyVisibility(const Name&, ...)` (lines 199-214). -/
def SetMaterialPropertyVisibility (tracing : Bool) (self : EditorContext V)
    (propertyId : Name) (visibility : MaterialPropertyVisibility) :
    Outcome (EditorContext V) :=
  match QueryMaterialPropertyMetadata tracing self propertyId with
  | (none, log) => ⟨false, self, log⟩
  | (some metadata, log) =>
    if metadata.m_visibility != visibility then
      ⟨true,
        { self with
          m_propertyMetadata :=
            unordered_map.store self.m_propertyMetadata propertyId
              { metadata with m_visibility := visibility }
          m_updatedPropertiesOut :=
            unordered_set.insert self.m_updatedPropertiesOut propertyId },
        log⟩
    else ⟨true, self, log⟩

/-- `EditorContext::SetMaterialPropertyDescription(const Name&, ...)` (lines 222-237). -/
def SetMaterialPropertyDescription (tracing : Bool) (self : EditorContext V)
    (propertyId : Name) (description : String) : Outcome (EditorContext V) :=
  match QueryMaterialPropertyMetadata tracing self propertyId with
  | (none, log) => ⟨false, self, log⟩
  | (some metadata, log) =>
    if metadata.m_description != description then
      ⟨true,
        { self with
          m_propertyMetadata :=
            unordered_map.store self.m_propertyMetadata propertyId
              { metadata with m_description := description }
          m_updatedPropertiesOut :=
            unordered_set.insert self.m_updatedPropertiesOut propertyId },
        log⟩
    else ⟨true, self, log⟩

/-- `EditorContext::SetMaterialPropertyMinValue(const Name&, ...)` (lines 245-260).  The
comparison is `operator!=` of `MaterialPropertyValue`, here the `!=` of `V`. -/
def SetMaterialPropertyMinValue [BEq V] (tracing : Bool) (self : EditorContext V)
    (propertyId : Name) (min : V) : Outcome (EditorContext V) :=
  match QueryMaterialPropertyMetadata tracing self propertyId with
  | (none, log) => ⟨false, self, log⟩
  | (some metadata, log) =>
    if metadata.m_propertyRange.m_min != min then
      ⟨true,
        { self with
          m_propertyMetadata :=
            unordered_map.store self.m_propertyMetadata propertyId
              { metadata with m_propertyRange := { metadata.m_propertyRange with m_min := min } }
          m_updatedPropertiesOut :=
            unordered_set.insert self.m_updatedPropertiesOut propertyId },
        log⟩
    else ⟨true, self, log⟩

/-- `EditorContext::SetMaterialPropertyMaxValue(const Name&, ...)` (lines 268-283). -/
def SetMaterialPropertyMaxValue [BEq V] (tracing : Bool) (self : EditorContext V)
    (propertyId : Name) (max : V) : Outcome (EditorContext V) :=
  match QueryMaterialPropertyMetadata tracing self propertyId with
  | (none, log) => ⟨false, self, log⟩
  | (some metadata, log) =>
    if metadata.m_propertyRange.m_max != max then
      ⟨true,
        { self with
          m_propertyMetadata :=
            unordered_map.store self.m_propertyMetadata propertyId
              { metadata with m_propertyRange := { metadata.m_propertyRange with m_max := max } }
          m_updatedPropertiesOut :=
            unordered_set.insert self.m_updatedPropertiesOut propertyId },
        log⟩
    else ⟨true, self, log⟩

/-- `EditorContext::SetMaterialPropertySoftMinValue(const Name&, ...)` (lines 291-306). -/
def SetMaterialPropertySoftMinValue [BEq V] (tracing : Bool) (self : EditorContext V)
    (propertyId : Name) (min : V) : Outcome (EditorContext V) :=
  match QueryMaterialPropertyMetadata tracing self propertyId with
  | (none, log) => ⟨false, self, log⟩
  | (some metadata, log) =>
    if metadata.m_propertyRange.m_softMin != min then
      ⟨true,
        { self with
          m_propertyMetadata :=
            unordered_map.store self.m_propertyMetadata propertyId
              { metadata with
                m_propertyRange := { metadata.m_propertyRange with m_softMin := min } }
          m_updatedPropertiesOut :=
            unordered_set.insert self.m_updatedPropertiesOut propertyId },
        log⟩
    else ⟨true, self, log⟩

/-- `EditorContext::SetMaterialPropertySoftMaxValue(const Name&, ...)` (lines 314-329). -/
def SetMaterialPropertySoftMaxValue [BEq V] (tracing : Bool) (self : EditorContext V)
    (propertyId : Name) (max : V) : Outcome (EditorContext V) :=
  match QueryMaterialPropertyMetadata tracing self propertyId with
  | (none, log) => ⟨false, self, log⟩
  | (some metadata, log) =>
    if metadata.m_propertyRange.m_softMax != max then
      ⟨true,
        { self with
          m_propertyMetadata :=
            unordered_map.store self.m_propertyMetadata propertyId
              { metadata with
                m_propertyRange := { metadata.m_propertyRange with m_softMax := max } }
          m_updatedPropertiesOut :=
            unordered_set.insert self.m_updatedPropertiesOut propertyId },
        log⟩
    else ⟨true, self, log⟩

/-- `EditorContext::GetMaterialPropertiesLayout` (lines 471-474). -/
def GetMaterialPropertiesLayout (self : EditorContext V) : MaterialPropertiesLayout :=
  self.m_materialProperties.GetMaterialPropertiesLayout

/-- `EditorContext::GetMaterialPropertyValue(const MaterialPropertyIndex&)` (lines 458-463):
the value returned and the diagnostics of the access check; `none` when the access check is
made with an index outside the width of the dependency set. -/
def GetMaterialPropertyValue (PropertyCountMax : Nat) (tracing : Bool)
    (self : EditorContext V) (index : MaterialPropertyIndex) : Option (V × List Diagnostic) :=
  match CheckPropertyAccess PropertyCountMax tracing index self.m_materialPropertyDependencies
      self.GetMaterialPropertiesLayout with
  | none => none
  | some log => some (self.m_materialProperties.GetPropertyValue index, log)

/-- `EditorContext::GetMaterialPropertyValue(const Name&)` (lines 465-469). -/
def GetMaterialPropertyValueByName (PropertyCountMax : Nat) (tracing : Bool)
    (self : EditorContext V) (propertyId : Name) : Option (V × List Diagnostic) :=
  let index := self.GetMaterialPropertiesLayout.FindPropertyIndex propertyId
  GetMaterialPropertyValue PropertyCountMax tracing self index

/-- The start of every index-keyed overload:
`m_materialProperties.GetMaterialPropertiesLayout()->GetPropertyDescriptor(index)->GetName()`.
The descriptor pointer is dereferenced unchecked; `none` stands for the call on a null
descriptor, for which C++ defines no behaviour. -/
def nameOfIndex (self : EditorContext V) (index : MaterialPropertyIndex) : Option Name :=
  (self.m_materialProperties.GetMaterialPropertiesLayout.GetPropertyDescriptor index).map
    (fun descriptor => descriptor.GetName)

/-- `EditorContext::GetMaterialPropertyMetadata(const MaterialPropertyIndex&)`
(lines 171-175). -/
def GetMaterialPropertyMetadataByIndex (tracing : Bool) (self : EditorContext V)
    (index : MaterialPropertyIndex) :
    Option (Option (MaterialPropertyDynamicMetadata V) × List Diagnostic) :=
  match self.nameOfIndex index with
  | none => none
  | some name => some (GetMaterialPropertyMetadata tracing self name)

/-- `EditorContext::SetMaterialPropertyVisibility(const MaterialPropertyIndex&, ...)`
(lines 216-220). -/
def SetMaterialPropertyVisibilityByIndex (tracing : Bool) (self : EditorContext V)
    (index : MaterialPropertyIndex) (visibility : MaterialPropertyVisibility) :
    Option (Outcome (EditorContext V)) :=
  match self.nameOfIndex index with
  | none => none
  | some name => some (SetMaterialPropertyVisibility tracing self name visibility)

/-- `EditorContext::SetMaterialPropertyDescription(const MaterialPropertyIndex&, ...)`
(lines 239-243). -/
def SetMaterialPropertyDescriptionByIndex (tracing : Bool) (self : EditorContext V)
    (index : MaterialPropertyIndex) (description : String) :
    Option (Outcome (EditorContext V)) :=
  match self.nameOfIndex index with
  | none => none
  | some name => some (SetMaterialPropertyDescription tracing self name description)

/-- `EditorContext::SetMaterialPropertyMinValue(const MaterialPropertyIndex&, ...)`
(lines 262-266). -/
def SetMaterialPropertyMinValueByIndex [BEq V] (tracing : Bool) (self : EditorContext V)
    (index : MaterialPropertyIndex) (min : V) : Option (Outcome (EditorContext V)) :=
  match self.nameOfIndex index with
  | none => none
  | some name => some (SetMaterialPropertyMinValue tracing self name min)

/-- `EditorContext::SetMaterialPropertyMaxValue(const MaterialPropertyIndex&, ...)`
(lines 285-289). -/
def SetMaterialPropertyMaxValueByIndex [BEq V] (tracing : Bool) (self : EditorContext V)
    (index : MaterialPropertyIndex) (max : V) : Option (Outcome (EditorContext V)) :=
  match self.nameOfIndex index with
  | none => none
  | some name => some (SetMaterialPropertyMaxValue tracing self name max)

/-- `EditorContext::SetMaterialPropertySoftMinValue(const MaterialPropertyIndex&, ...)`
(lines 308-312). -/
def SetMaterialPropertySoftMinValueByIndex [BEq V] (tracing : Bool) (self : EditorContext V)
    (index : MaterialPropertyIndex) (min : V) : Option (Outcome (EditorContext V)) :=
  match self.nameOfIndex index with
  | none => none
  | some name => some (SetMaterialPropertySoftMinValue tracing self name min)

/-- `EditorContext::SetMaterialPropertySoftMaxValue(const MaterialPropertyIndex&, ...)`
(lines 331-335). -/
def SetMaterialPropertySoftMaxValueByIndex [BEq V] (tracing : Bool) (self : EditorContext V)
    (index : MaterialPropertyIndex) (max : V) : Option (Outcome (EditorContext V)) :=
  match self.nameOfIndex index with
  | none => none
  | some name => some (SetMaterialPropertySoftMaxValue tracing self name max)

/-- One call of a name-keyed `Set<Attribute>` operation of the editor context, with its
arguments. -/
inductive SetCall (V : Type) where
  | groupVisibility (propertyGroupName : Name) (visibility : MaterialPropertyGroupVisibility)
  | visibility (propertyId : Name) (visibility : MaterialPropertyVisibility)
  | description (propertyId : Name) (description : String)
  | minValue (propertyId : Name) (min : V)
  | maxValue (propertyId : Name) (max : V)
  | softMinValue (propertyId : Name) (min : V)
  | softMaxValue (propertyId : Name) (max : V)

/-- Makes the call on the context. -/
def SetCall.run [BEq V] (tracing : Bool) (self : EditorContext V) :
    SetCall V → Outcome (EditorContext V)
  | .groupVisibility id v => self.SetMaterialPropertyGroupVisibility tracing id v
  | .visibility id v => self.SetMaterialPropertyVisibility tracing id v
  | .description id d => self.SetMaterialPropertyDescription tracing id d
  | .minValue id x => self.SetMaterialPropertyMinValue tracing id x
  | .maxValue id x => self.SetMaterialPropertyMaxValue tracing id x
  | .softMinValue id x => self.SetMaterialPropertySoftMinValue tracing id x
  | .softMaxValue id x => self.SetMaterialPropertySoftMaxValue tracing id x

/-- Makes the calls one after the other on the same context, as one evaluation pass of a
functor does; the context after the last call. -/
def runCalls [BEq V] (tracing : Bool) :
    EditorContext V → List (SetCall V) → EditorContext V
  | ctx, [] => ctx
  | ctx, call :: rest => runCalls tracing (call.run tracing ctx).state rest

/-- One call of an operation of the editor context that sets or looks up metadata, keyed by
name or by index, with its arguments. -/
inductive Operation (V : Type) where
  | set (call : SetCall V)
  | setVisibilityByIndex (index : MaterialPropertyIndex)
      (visibility : MaterialPropertyVisibility)
  | setDescriptionByIndex (index : MaterialPropertyIndex) (description : String)
  | setMinValueByIndex (index : MaterialPropertyIndex) (min : V)
  | setMaxValueByIndex (index : MaterialPropertyIndex) (max : V)
  | setSoftMinValueByIndex (index : MaterialPropertyIndex) (min : V)
  | setSoftMaxValueByIndex (index : MaterialPropertyIndex) (max : V)
  | getMetadata (propertyId : Name)
  | getMetadataByIndex (index : MaterialPropertyIndex)
  | getGroupMetadata (propertyId : Name)

/-- The context after the operation; `none` when an index-keyed operation meets a null
descriptor.  The bodies of the lookups (lines 166-180 and 337-359) write to nothing, which
is why they are translated as functions that yield a result and diagnostics only: the
context after a lookup is the context before it. -/
def Operation.contextAfter [BEq V] (tracing : Bool) (self : EditorContext V) :
    Operation V → Option (EditorContext V)
  | .set call => some (call.run tracing self).state
  | .setVisibilityByIndex index v =>
    (self.SetMaterialPropertyVisibilityByIndex tracing index v).map (fun out => out.state)
  | .setDescriptionByIndex index d =>
    (self.SetMaterialPropertyDescriptionByIndex tracing index d).map (fun out => out.state)
  | .setMinValueByIndex index x =>
    (self.SetMaterialPropertyMinValueByIndex tracing index x).map (fun out => out.state)
  | .setMaxValueByIndex index x =>
    (self.SetMaterialPropertyMaxValueByIndex tracing index x).map (fun out => out.state)
  | .setSoftMinValueByIndex index x =>
    (self.SetMaterialPropertySoftMinValueByIndex tracing index x).map (fun out => out.state)
  | .setSoftMaxValueByIndex index x =>
    (self.SetMaterialPropertySoftMaxValueByIndex tracing index x).map (fun out => out.state)
  | .getMetadata propertyId =>
    let _found := self.GetMaterialPropertyMetadata tracing propertyId
    some self
  | .getMetadataByIndex index =>
    (self.GetMaterialPropertyMetadataByIndex tracing index).map (fun _ => self)
  | .getGroupMetadata propertyId =>
    let _found := self.GetMaterialPropertyGroupMetadata tracing propertyId
    some self

/-- The operations keyed by index. -/
def Operation.index? : Operation V → Option MaterialPropertyIndex
  | .setVisibilityByIndex index _ => some index
  | .setDescriptionByIndex index _ => some index
  | .setMinValueByIndex index _ => some index
  | .setMaxValueByIndex index _ => some index
  | .setSoftMinValueByIndex index _ => some index
  | .setSoftMaxValueByIndex index _ => some index
  | .getMetadataByIndex index => some index
  | _ => none

end MaterialFunctor.EditorContext

/-! ## Shader collections -/

/-- Modelled from the spec: `ShaderOptionIndex`, an `RHI::Handle` declared outside this
file: `none` is the null handle. -/
abbrev ShaderOptionIndex := Option Nat

/-- `Handle::IsValid`. -/
def ShaderOptionIndex.IsValid (self : ShaderOptionIndex) : Bool :=
  self.isSome

/-- `ShaderOptionGroup` (with its `ShaderOptionGroupLayout`) is declared outside this file:
the record of the member functions the file calls on a group of type `G`, for a value of
type `ValueType` (the template parameter of `SetShaderOptionValueHelper`). -/
structure ShaderOptionGroupApi (G ValueType : Type) where
  /-- `group.GetShaderOptionLayout()->FindShaderOptionIndex(name)` -/
  FindShaderOptionIndex : G → Name → ShaderOptionIndex
  /-- `group.SetValue(optionIndex, value)`: the `bool` returned and the group afterwards -/
  SetValue : G → ShaderOptionIndex → ValueType → Bool × G

/-- Modelled from the spec: `ShaderCollection::Item`, declared outside this file:
enablement, draw list tag override, render states overlay (of type `R`), shader tag, shader
option group (of type `G`) and the options of the shader that the material owns. -/
structure ShaderCollection.Item (G R : Type) where
  m_enabled : Bool
  m_drawListTagOverride : Name
  m_renderStatesOverlay : R
  m_shaderTag : Name
  m_shaderOptionGroup : G
  m_ownedShaderOptionIndices : List ShaderOptionIndex
  deriving DecidableEq, Repr

/-- Modelled from the spec: `Item::GetShaderOptions`, declared outside this file, gives the
shader option group of the item. -/
def ShaderCollection.Item.GetShaderOptions {G R : Type} (self : ShaderCollection.Item G R) : G :=
  self.m_shaderOptionGroup

/-- Modelled from the spec: `Item::MaterialOwnsShaderOption`, declared outside this file,
the ownership predicate of the item. -/
def ShaderCollection.Item.MaterialOwnsShaderOption {G R : Type}
    (self : ShaderCollection.Item G R) (optionIndex : ShaderOptionIndex) : Bool :=
  decide (optionIndex ∈ self.m_ownedShaderOptionIndices)

/-- Modelled from the spec: `Item::SetEnabled`, declared outside this file, sets the
enablement flag of the shader item. -/
def ShaderCollection.Item.SetEnabled {G R : Type} (self : ShaderCollection.Item G R)
    (enabled : Bool) : ShaderCollection.Item G R :=
  { self with m_enabled := enabled }

/-- Modelled from the spec: `Item::SetDrawListTagOverride`, declared outside this file, sets
the draw list tag override of the shader item to the name given. -/
def ShaderCollection.Item.SetDrawListTagOverride {G R : Type}
    (self : ShaderCollection.Item G R) (drawListTagName : Name) : ShaderCollection.Item G R :=
  { self with m_drawListTagOverride := drawListTagName }

/-- Modelled from the spec: `ShaderCollection`, declared outside this file: the shader
items in order. -/
abbrev ShaderCollection (G R : Type) := List (ShaderCollection.Item G R)

/-- Modelled from the spec: `ShaderCollection::operator[](size_t)`, declared outside this
file, addresses the item at the position given; `none` when the position is outside the
collection, for which C++ defines no behaviour. -/
def ShaderCollection.indexPosition {G R : Type} (self : ShaderCollection G R)
    (shaderIndex : Nat) : Option Nat :=
  if shaderIndex < self.length then some shaderIndex else none

/-- Modelled from the spec: `ShaderCollection::operator[](const Name&)`, declared outside
this file, addresses the first item that carries the shader tag; `none` when no item does,
for which C++ defines no behaviour. -/
def ShaderCollection.tagPosition {G R : Type} : ShaderCollection G R → Name → Option Nat
  | [], _ => none
  | item :: rest, shaderTag =>
    if item.m_shaderTag = shaderTag then some 0
    else (ShaderCollection.tagPosition rest shaderTag).map (fun position => position + 1)

/-- `MaterialPipelineShaderCollections`, an `unordered_map<Name, ShaderCollection>`: the
pipelines in the container's iteration order. -/
abbrev MaterialPipelineShaderCollections (G R : Type) := unordered_map (ShaderCollection G R)

/-! ## Runtime context -/

/-- What the pointer `m_commonShaderCollection` points at. -/
inductive ShaderCollectionPointer where
  /-- `&iter->second`: the collection stored in the map under this pipeline name -/
  | pipelineEntry (pipelineName : Name)
  /-- `&EmptyShaderCollection`: the function-local static of the constructor -/
  | emptyShaderCollection
  deriving DecidableEq, Repr

/-- `MaterialFunctor::RuntimeContext` (constructor, lines 34-58): the members the functions
below read or write.  The shader collections are held by pointer in C++; here the context
carries their contents.  `EmptyShaderCollection` is the function-local static of the
constructor, shared by all contexts; it is carried here so that calls through
`m_commonShaderCollection` show what they do to it. -/
structure MaterialFunctor.RuntimeContext (V G R : Type) where
  m_materialProperties : MaterialPropertyCollection V
  m_allShaderCollections : MaterialPipelineShaderCollections G R
  m_materialPropertyDependencies : MaterialPropertyFlags
  m_commonShaderCollection : ShaderCollectionPointer
  EmptyShaderCollection : ShaderCollection G R

namespace MaterialFunctor.RuntimeContext

variable {V G R ValueType : Type}

/-- What one pass through the body of the inner loop of `SetShaderOptionValueHelper`
(lines 69-88) ends in. -/
inductive ItemStep (G R : Type) where
  /-- the body ended or hit `continue`: the item and `didSetOne` afterwards -/
  | next (shaderItem : ShaderCollection.Item G R) (didSetOne : Bool)
  /-- the body hit `return false` (line 82), having emitted `log` -/
  | returned (value : Bool) (log : List Diagnostic)

/-- The body of the inner loop of `SetShaderOptionValueHelper` (lines 69-88). -/
def SetShaderOptionValueHelper.body (api : ShaderOptionGroupApi G ValueType) (tracing : Bool)
    (name : Name) (value : ValueType) (didSetOne : Bool)
    (shaderItem : ShaderCollection.Item G R) : ItemStep G R :=
  let shaderOptionGroup := shaderItem.GetShaderOptions
  let optionIndex := api.FindShaderOptionIndex shaderOptionGroup name
  if !optionIndex.IsValid then
    ItemStep.next shaderItem didSetOne
  else if !shaderItem.MaterialOwnsShaderOption optionIndex then
    ItemStep.returned false
      (AZ_Error tracing (Diagnostic.shaderOptionNotOwned name) ++
        AZ_Assert tracing (!didSetOne) Diagnostic.ownershipAssertFailed)
  else
    let setResult := api.SetValue shaderOptionGroup optionIndex value
    ItemStep.next { shaderItem with m_shaderOptionGroup := setResult.2 }
      (if setResult.1 then true else didSetOne)

/-- How control leaves a loop of `SetShaderOptionValueHelper`. -/
inductive LoopExit where
  /-- the range was exhausted, with this `didSetOne` -/
  | completed (didSetOne : Bool)
  /-- the function returned from inside the loop -/
  | returned (value : Bool) (log : List Diagnostic)
  deriving DecidableEq, Repr

/-- The inner loop (line 67) over the items of one shader collection, from `didSetOne`: the
collection afterwards and how the loop was left. -/
def SetShaderOptionValueHelper.itemLoop (api : ShaderOptionGroupApi G ValueType)
    (tracing : Bool) (name : Name) (value : ValueType) :
    ShaderCollection G R → Bool → ShaderCollection G R × LoopExit
  | [], didSetOne => ([], LoopExit.completed didSetOne)
  | shaderItem :: rest, didSetOne =>
    match SetShaderOptionValueHelper.body api tracing name value didSetOne shaderItem with
    | ItemStep.returned v log => (shaderItem :: rest, LoopExit.returned v log)
    | ItemStep.next shaderItem1 didSetOne1 =>
      let r := SetShaderOptionValueHelper.itemLoop api tracing name value rest didSetOne1
      (shaderItem1 :: r.1, r.2)

/-- The outer loop (line 65) over the pipelines of the shader collection map. -/
def SetShaderOptionValueHelper.pipelineLoop (api : ShaderOptionGroupApi G ValueType)
    (tracing : Bool) (name : Name) (value : ValueType) :
    MaterialPipelineShaderCollections G R → Bool →
      MaterialPipelineShaderCollections G R × LoopExit
  | [], didSetOne => ([], LoopExit.completed didSetOne)
  | shaderCollectionPair :: rest, didSetOne =>
    match SetShaderOptionValueHelper.itemLoop api tracing name value
        shaderCollectionPair.2 didSetOne with
    | (collection1, LoopExit.returned v log) =>
      ((shaderCollectionPair.1, collection1) :: rest, LoopExit.returned v log)
    | (collection1, LoopExit.completed didSetOne1) =>
      let r := SetShaderOptionValueHelper.pipelineLoop api tracing name value rest didSetOne1
      ((shaderCollectionPair.1, collection1) :: r.1, r.2)

/-- `RuntimeContext::SetShaderOptionValueHelper` (lines 60-98). -/
def SetShaderOptionValueHelper (api : ShaderOptionGroupApi G ValueType) (tracing : Bool)
    (self : RuntimeContext V G R) (name : Name) (value : ValueType) :
    Outcome (RuntimeContext V G R) :=
  match SetShaderOptionValueHelper.pipelineLoop api tracing name value
      self.m_allShaderCollections false with
  | (collections1, LoopExit.returned v log) =>
    ⟨v, { self with m_allShaderCollections := collections1 }, log⟩
  | (collections1, LoopExit.completed didSetOne) =>
    ⟨didSetOne, { self with m_allShaderCollections := collections1 },
      if !didSetOne then AZ_Error tracing (Diagnostic.shaderOptionNotFound name) else []⟩

/-- `RuntimeContext::SetShaderOptionValue` (lines 100-108, both overloads: `ValueType` is
`ShaderOptionValue` for the first and `Name` for the second). -/
def SetShaderOptionValue (api : ShaderOptionGroupApi G ValueType) (tracing : Bool)
    (self : RuntimeContext V G R) (optionName : Name) (value : ValueType) :
    Outcome (RuntimeContext V G R) :=
  SetShaderOptionValueHelper api tracing self optionName value

/-- `RuntimeContext::GetMaterialPropertiesLayout` (lines 440-443). -/
def GetMaterialPropertiesLayout (self : RuntimeContext V G R) : MaterialPropertiesLayout :=
  self.m_materialProperties.GetMaterialPropertiesLayout

/-- `RuntimeContext::GetMaterialPropertyValue(const MaterialPropertyIndex&)` (lines 445-450):
the value returned and the diagnostics of the access check; `none` when the access check is
made with an index outside the width of the dependency set. -/
def GetMaterialPropertyValue (PropertyCountMax : Nat) (tracing : Bool)
    (self : RuntimeContext V G R) (index : MaterialPropertyIndex) :
    Option (V × List Diagnostic) :=
  match CheckPropertyAccess PropertyCountMax tracing index self.m_materialPropertyDependencies
      self.GetMaterialPropertiesLayout with
  | none => none
  | some log => some (self.m_materialProperties.GetPropertyValue index, log)

/-- `RuntimeContext::GetMaterialPropertyValue(const Name&)` (lines 452-456). -/
def GetMaterialPropertyValueByName (PropertyCountMax : Nat) (tracing : Bool)
    (self : RuntimeContext V G R) (propertyId : Name) : Option (V × List Diagnostic) :=
  let index := self.GetMaterialPropertiesLayout.FindPropertyIndex propertyId
  GetMaterialPropertyValue PropertyCountMax tracing self index

/-- `*m_commonShaderCollection`: the collection the pointer refers to; `none` when it
refers to no collection of the map. -/
def commonShaderCollection (self : RuntimeContext V G R) : Option (ShaderCollection G R) :=
  match self.m_commonShaderCollection with
  | ShaderCollectionPointer.pipelineEntry pipelineName =>
    unordered_map.find self.m_allShaderCollections pipelineName
  | ShaderCollectionPointer.emptyShaderCollection => some self.EmptyShaderCollection

/-- A write through `m_commonShaderCollection`: the collection the pointer refers to becomes
`collection`. -/
def storeCommonShaderCollection (self : RuntimeContext V G R)
    (collection : ShaderCollection G R) : RuntimeContext V G R :=
  match self.m_commonShaderCollection with
  | ShaderCollectionPointer.pipelineEntry pipelineName =>
    { self with
      m_allShaderCollections :=
        unordered_map.store self.m_allShaderCollections pipelineName collection }
  | ShaderCollectionPointer.emptyShaderCollection =>
    { self with EmptyShaderCollection := collection }

/-- `RuntimeContext::GetShaderCount` (lines 115-118). -/
def GetShaderCount (self : RuntimeContext V G R) : Option Nat :=
  self.commonShaderCollection.map (fun collection => collection.length)

/-- The expression `(*m_commonShaderCollection)[key]` followed by a call on the item it
yields that turns the item into `change item`; `position` is the `operator[]` used.  `none`
when the expression addresses no item. -/
def changeCommonItem (self : RuntimeContext V G R)
    (position : ShaderCollection G R → Option Nat)
    (change : ShaderCollection.Item G R → ShaderCollection.Item G R) :
    Option (RuntimeContext V G R) :=
  match self.commonShaderCollection with
  | none => none
  | some collection =>
    match position collection with
    | none => none
    | some i =>
      match collection[i]? with
      | none => none
      | some item => some (self.storeCommonShaderCollection (collection.set i (change item)))

/-- `RuntimeContext::SetShaderEnabled(AZStd::size_t, bool)` (lines 120-123). -/
def SetShaderEnabled (self : RuntimeContext V G R) (shaderIndex : Nat) (enabled : Bool) :
    Option (RuntimeContext V G R) :=
  self.changeCommonItem (fun collection => collection.indexPosition shaderIndex)
    (fun item => item.SetEnabled enabled)

/-- `RuntimeContext::SetShaderEnabled(const AZ::Name&, bool)` (lines 125-128). -/
def SetShaderEnabledByTag (self : RuntimeContext V G R) (shaderTag : Name) (enabled : Bool) :
    Option (RuntimeContext V G R) :=
  self.changeCommonItem (fun collection => collection.tagPosition shaderTag)
    (fun item => item.SetEnabled enabled)

/-- `RuntimeContext::SetShaderDrawListTagOverride(AZStd::size_t, const Name&)`
(lines 130-133). -/
def SetShaderDrawListTagOverride (self : RuntimeContext V G R) (shaderIndex : Nat)
    (drawListTagName : Name) : Option (RuntimeContext V G R) :=
  self.changeCommonItem (fun collection => collection.indexPosition shaderIndex)
    (fun item => item.SetDrawListTagOverride drawListTagName)

/-- `RuntimeContext::SetShaderDrawListTagOverride(const AZ::Name&, const Name&)`
(lines 135-138). -/
def SetShaderDrawListTagOverrideByTag (self : RuntimeContext V G R) (shaderTag : Name)
    (drawListTagName : Name) : Option (RuntimeContext V G R) :=
  self.changeCommonItem (fun collection => collection.tagPosition shaderTag)
    (fun item => item.SetDrawListTagOverride drawListTagName)

/-- `RuntimeContext::ApplyShaderRenderStateOverlay(AZStd::size_t, ...)` (lines 140-143).
`MergeStateInto overlay target` is the target after `RHI::MergeStateInto`, a function declared
outside this file. -/
def ApplyShaderRenderStateOverlay (MergeStateInto : R → R → R) (self : RuntimeContext V G R)
    (shaderIndex : Nat) (renderStatesOverlay : R) : Option (RuntimeContext V G R) :=
  self.changeCommonItem (fun collection => collection.indexPosition shaderIndex)
    (fun item =>
      { item with
        m_renderStatesOverlay := MergeStateInto renderStatesOverlay item.m_renderStatesOverlay })

/-- `RuntimeContext::ApplyShaderRenderStateOverlay(const AZ::Name&, ...)` (lines 145-148). -/
def ApplyShaderRenderStateOverlayByTag (MergeStateInto : R → R → R)
    (self : RuntimeContext V G R) (shaderTag : Name) (renderStatesOverlay : R) :
    Option (RuntimeContext V G R) :=
  self.changeCommonItem (fun collection => collection.tagPosition shaderTag)
    (fun item =>
      { item with
        m_renderStatesOverlay := MergeStateInto renderStatesOverlay item.m_renderStatesOverlay })

/-- One call of a mutating operation of the runtime context, with its arguments. -/
inductive Call (ValueType R : Type) where
  | setShaderOptionValue (optionName : Name) (value : ValueType)
  | setShaderEnabled (shaderIndex : Nat) (enabled : Bool)
  | setShaderEnabledByTag (shaderTag : Name) (enabled : Bool)
  | setShaderDrawListTagOverride (shaderIndex : Nat) (drawListTagName : Name)
  | setShaderDrawListTagOverrideByTag (shaderTag : Name) (drawListTagName : Name)
  | applyShaderRenderStateOverlay (shaderIndex : Nat) (renderStatesOverlay : R)
  | applyShaderRenderStateOverlayByTag (shaderTag : Name) (renderStatesOverlay : R)

/-- Makes the call on the context: the context afterwards, `none` when the call addresses
no item. -/
def Call.run (api : ShaderOptionGroupApi G ValueType) (MergeStateInto : R → R → R)
    (tracing : Bool) (self : RuntimeContext V G R) :
    Call ValueType R → Option (RuntimeContext V G R)
  | Call.setShaderOptionValue optionName value =>
    some (SetShaderOptionValue api tracing self optionName value).state
  | Call.setShaderEnabled shaderIndex enabled => self.SetShaderEnabled shaderIndex enabled
  | Call.setShaderEnabledByTag shaderTag enabled => self.SetShaderEnabledByTag shaderTag enabled
  | Call.setShaderDrawListTagOverride shaderIndex drawListTagName =>
    self.SetShaderDrawListTagOverride shaderIndex drawListTagName
  | Call.setShaderDrawListTagOverrideByTag shaderTag drawListTagName =>
    self.SetShaderDrawListTagOverrideByTag shaderTag drawListTagName
  | Call.applyShaderRenderStateOverlay shaderIndex renderStatesOverlay =>
    self.ApplyShaderRenderStateOverlay MergeStateInto shaderIndex renderStatesOverlay
  | Call.applyShaderRenderStateOverlayByTag shaderTag renderStatesOverlay =>
    self.ApplyShaderRenderStateOverlayByTag MergeStateInto shaderTag renderStatesOverlay

/-- Makes the calls one after the other on the same context: the context after the last
call.  `none` when one of the calls addresses no item: that call has no defined behaviour,
and so the sequence has no defined outcome. -/
def runCalls (api : ShaderOptionGroupApi G ValueType) (MergeStateInto : R → R → R)
    (tracing : Bool) :
    RuntimeContext V G R → List (Call ValueType R) → Option (RuntimeContext V G R)
  | ctx, [] => some ctx
  | ctx, call :: rest =>
    match call.run api MergeStateInto tracing ctx with
    | none => none
    | some next => runCalls api MergeStateInto tracing next rest

end MaterialFunctor.RuntimeContext

/-- The constructor `RuntimeContext::RuntimeContext` (lines 34-58), without the shader
resource group and the PSO handling, which no function below uses.
`MaterialPipelineNameCommon` is a constant declared outside this file.  The declaration
`static ShaderCollection EmptyShaderCollection;` default-constructs the static: it holds no
item. -/
def MaterialFunctor.RuntimeContext.construct {V G R : Type}
    (MaterialPipelineNameCommon : Name) (materialProperties : MaterialPropertyCollection V)
    (shaderCollections : MaterialPipelineShaderCollections G R)
    (materialPropertyDependencies : MaterialPropertyFlags) :
    MaterialFunctor.RuntimeContext V G R :=
  { m_materialProperties := materialProperties
    m_allShaderCollections := shaderCollections
    m_materialPropertyDependencies := materialPropertyDependencies
    EmptyShaderCollection := []
    m_commonShaderCollection :=
      match unordered_map.find shaderCollections MaterialPipelineNameCommon with
      | some _ => ShaderCollectionPointer.pipelineEntry MaterialPipelineNameCommon
      | none => ShaderCollectionPointer.emptyShaderCollection }

/-! ## Vocabulary of the statements -/

/-- What a property setter that found a difference has done: it returned true, the record
under `id` in the property metadata map satisfies `P`, and `id` is in the changed-property
set. -/
def MaterialFunctor.EditorContext.RecordsPropertyChange {V : Type}
    (out : Outcome (MaterialFunctor.EditorContext V)) (id : Name)
    (P : MaterialPropertyDynamicMetadata V → Prop) : Prop :=
  out.result = true ∧
    (∃ r, unordered_map.find out.state.m_propertyMetadata id = some r ∧ P r) ∧
    id ∈ out.state.m_updatedPropertiesOut

/-- What the group setter that found a difference has done: it returned true, the record
under `id` in the property group metadata map satisfies `P`, and `id` is in the
changed-group set. -/
def MaterialFunctor.EditorContext.RecordsGroupChange {V : Type}
    (out : Outcome (MaterialFunctor.EditorContext V)) (id : Name)
    (P : MaterialPropertyGroupDynamicMetadata → Prop) : Prop :=
  out.result = true ∧
    (∃ r, unordered_map.find out.state.m_propertyGroupMetadata id = some r ∧ P r) ∧
    id ∈ out.state.m_updatedPropertyGroupsOut

/-- The material owns the option `name` of the item: the item's layout has an option of
that name and `MaterialOwnsShaderOption` is true for its index. -/
def ShaderCollection.Item.OwnsOption {G R ValueType : Type}
    (api : ShaderOptionGroupApi G ValueType) (name : Name)
    (item : ShaderCollection.Item G R) : Bool :=
  (api.FindShaderOptionIndex item.GetShaderOptions name).IsValid &&
    item.MaterialOwnsShaderOption (api.FindShaderOptionIndex item.GetShaderOptions name)

/-- The item has the option `name` without the material owning it: the item's layout has an
option of that name and `MaterialOwnsShaderOption` is false for its index. -/
def ShaderCollection.Item.HasUnownedOption {G R ValueType : Type}
    (api : ShaderOptionGroupApi G ValueType) (name : Name)
    (item : ShaderCollection.Item G R) : Bool :=
  (api.FindShaderOptionIndex item.GetShaderOptions name).IsValid &&
    !item.MaterialOwnsShaderOption (api.FindShaderOptionIndex item.GetShaderOptions name)

/-- The `bool` that `SetValue` returns for the option `name` of the item and `value`. -/
def ShaderCollection.Item.SetValueSucceeds {G R ValueType : Type}
    (api : ShaderOptionGroupApi G ValueType) (name : Name) (value : ValueType)
    (item : ShaderCollection.Item G R) : Bool :=
  (api.SetValue item.GetShaderOptions
    (api.FindShaderOptionIndex item.GetShaderOptions name) value).1

/-- The item after `SetValue` was called for its option `name` and `value` when the material
owns that option, the item itself otherwise. -/
def ShaderCollection.Item.applyToOwned {G R ValueType : Type}
    (api : ShaderOptionGroupApi G ValueType) (name : Name) (value : ValueType)
    (item : ShaderCollection.Item G R) : ShaderCollection.Item G R :=
  if item.OwnsOption api name then
    { item with
      m_shaderOptionGroup :=
        (api.SetValue item.GetShaderOptions
          (api.FindShaderOptionIndex item.GetShaderOptions name) value).2 }
  else item

/-- Every pipeline of the map with `applyToOwned` done to each of its items. -/
def MaterialPipelineShaderCollections.applyToOwned {G R ValueType : Type}
    (api : ShaderOptionGroupApi G ValueType) (name : Name) (value : ValueType)
    (collections : MaterialPipelineShaderCollections G R) :
    MaterialPipelineShaderCollections G R :=
  collections.map (fun pair => (pair.1, pair.2.map (fun item => item.applyToOwned api name value)))

/-- The diagnostics that come from an `AZ_Error` (all but the one of the `AZ_Assert`). -/
def Diagnostic.isError : Diagnostic → Bool
  | Diagnostic.ownershipAssertFailed => false
  | _ => true

/-- The frame of a property setter called with `id`: records under other keys of the
property metadata map are as before, the record under `id`, when there is one, is related
to the one before by `agree`, no record appears under `id` when there was none, and the
property group metadata map and the changed-group set are as before. -/
def MaterialFunctor.EditorContext.PropertySetterFrame {V : Type}
    (before after : MaterialFunctor.EditorContext V) (id : Name)
    (agree : MaterialPropertyDynamicMetadata V → MaterialPropertyDynamicMetadata V → Prop) :
    Prop :=
  (∀ k, k ≠ id →
      unordered_map.find after.m_propertyMetadata k =
        unordered_map.find before.m_propertyMetadata k) ∧
    (∀ r, unordered_map.find before.m_propertyMetadata id = some r →
      ∃ r1, unordered_map.find after.m_propertyMetadata id = some r1 ∧ agree r r1) ∧
    (unordered_map.find before.m_propertyMetadata id = none →
      unordered_map.find after.m_propertyMetadata id = none) ∧
    after.m_propertyGroupMetadata = before.m_propertyGroupMetadata ∧
    after.m_updatedPropertyGroupsOut = before.m_updatedPropertyGroupsOut

/-- The frame of the group setter called with `id`: records under other keys of the group
metadata map are as before, and the property metadata map and the changed-property set are
as before. -/
def MaterialFunctor.EditorContext.GroupSetterFrame {V : Type}
    (before after : MaterialFunctor.EditorContext V) (id : Name) : Prop :=
  (∀ k, k ≠ id →
      unordered_map.find after.m_propertyGroupMetadata k =
        unordered_map.find before.m_propertyGroupMetadata k) ∧
    after.m_propertyMetadata = before.m_propertyMetadata ∧
    after.m_updatedPropertiesOut = before.m_updatedPropertiesOut

/-- The shader collection map of `after` is that of `before` except for item `i` of the
collection stored under `common`, which is `newItem`: the collection has the same length and
the same items at all other positions, and the collections under other pipeline names are
the same. -/
def MaterialFunctor.RuntimeContext.ChangesOnlyCommonItem {V G R : Type} (common : Name)
    (before after : MaterialFunctor.RuntimeContext V G R) (i : Nat)
    (newItem : ShaderCollection.Item G R) : Prop :=
  ∃ collection collection1,
    unordered_map.find before.m_allShaderCollections common = some collection ∧
      unordered_map.find after.m_allShaderCollections common = some collection1 ∧
      collection1.length = collection.length ∧
      collection1[i]? = some newItem ∧
      (∀ j, j ≠ i → collection1[j]? = collection[j]?) ∧
      (∀ k, k ≠ common →
        unordered_map.find after.m_allShaderCollections k =
          unordered_map.find before.m_allShaderCollections k)

/-- The keys of a map, in the container's iteration order. -/
def unordered_map.keys {α : Type} (m : unordered_map α) : List Name :=
  m.map Prod.fst

/-- The two metadata maps of `after` have the keys of those of `before`: no record was added
or removed. -/
def MaterialFunctor.EditorContext.SameKeys {V : Type}
    (before after : MaterialFunctor.EditorContext V) : Prop :=
  unordered_map.keys after.m_propertyMetadata = unordered_map.keys before.m_propertyMetadata ∧
    unordered_map.keys after.m_propertyGroupMetadata =
      unordered_map.keys before.m_propertyGroupMetadata

/-- Every member of each changed-id set is a key of the metadata map the set belongs to. -/
def MaterialFunctor.EditorContext.ChangedIdsAreKeys {V : Type}
    (ctx : MaterialFunctor.EditorContext V) : Prop :=
  (∀ id ∈ ctx.m_updatedPropertiesOut, id ∈ unordered_map.keys ctx.m_propertyMetadata) ∧
    (∀ id ∈ ctx.m_updatedPropertyGroupsOut,
      id ∈ unordered_map.keys ctx.m_propertyGroupMetadata)

/-! ## Sample data -/

/-- A property collection of integer values with the one property "roughness". -/
def sampleProperties : MaterialPropertyCollection Int where
  GetMaterialPropertiesLayout :=
    { FindPropertyIndex := fun name => if name = "roughness" then ⟨0⟩ else ⟨4294967295⟩
      GetPropertyDescriptor := fun index =>
        if index.m_index = 0 then some ⟨"roughness"⟩ else none }
  GetPropertyValue := fun index => if index.m_index = 0 then 7 else 0

/-- The metadata record of "roughness" in `sampleEditorContext`. -/
def roughnessMetadata : MaterialPropertyDynamicMetadata Int :=
  { m_visibility := MaterialPropertyVisibility.Enabled
    m_description := "surface roughness"
    m_propertyRange := { m_min := 0, m_max := 10, m_softMin := 1, m_softMax := 9 } }

/-- An editor context over one property "roughness" (visibility Enabled) and one property
group "general", with empty changed-id sets and no declared dependency. -/
def sampleEditorContext : MaterialFunctor.EditorContext Int :=
  { m_materialProperties := sampleProperties
    m_propertyMetadata := [("roughness", roughnessMetadata)]
    m_propertyGroupMetadata := [("general", ⟨MaterialPropertyGroupVisibility.Enabled⟩)]
    m_updatedPropertiesOut := []
    m_updatedPropertyGroupsOut := []
    m_materialPropertyDependencies := 0 }

/-- One evaluation pass over "roughness": its visibility, its description and its minimum
are changed, then the visibility is set once more to the value it already has. -/
def sampleCalls : List (MaterialFunctor.EditorContext.SetCall Int) :=
  [ .visibility "roughness" MaterialPropertyVisibility.Disabled,
    .description "roughness" "how rough the surface is",
    .minValue "roughness" 2,
    .visibility "roughness" MaterialPropertyVisibility.Disabled ]

/-- A shader option group for the sample data: the option names of its layout and the value
each option holds. -/
structure SampleOptionGroup where
  names : List Name
  values : List Nat
  deriving DecidableEq, Repr

/-- Looks a name up in a list of names, from position `start`. -/
def SampleOptionGroup.indexFrom (name : Name) : List Name → Nat → ShaderOptionIndex
  | [], _ => none
  | n :: rest, start =>
    if n = name then some start else SampleOptionGroup.indexFrom name rest (start + 1)

/-- A shader option group interface for the sample data: options are found by position of
their name, and `SetValue` stores the values 0 and 1 and refuses every other value, as an
option over a two-valued range does. -/
def sampleApi : ShaderOptionGroupApi SampleOptionGroup Nat where
  FindShaderOptionIndex := fun group name => SampleOptionGroup.indexFrom name group.names 0
  SetValue := fun group optionIndex value =>
    match optionIndex with
    | some i => if value ≤ 1 then (true, { group with values := group.values.set i value })
      else (false, group)
    | none => (false, group)

/-- A shader item with the given tag, option names (all options at value 0) and owned option
indices. -/
def sampleItem (tag : Name) (names : List Name) (owned : List ShaderOptionIndex) :
    ShaderCollection.Item SampleOptionGroup Unit :=
  { m_enabled := true
    m_drawListTagOverride := ""
    m_renderStatesOverlay := ()
    m_shaderTag := tag
    m_shaderOptionGroup := { names := names, values := names.map (fun _ => 0) }
    m_ownedShaderOptionIndices := owned }

/-- A runtime context whose common pipeline has three shaders: shaders 0 and 2 have the
option "o_useTexture" and the material owns it, shader 1 does not have it. -/
def sampleRuntimeContext : MaterialFunctor.RuntimeContext Int SampleOptionGroup Unit :=
  { m_materialProperties := sampleProperties
    m_allShaderCollections :=
      [("common",
        [ sampleItem "forward" ["o_useTexture"] [some 0],
          sampleItem "depth" ["o_other"] [some 0],
          sampleItem "shadow" ["o_other", "o_useTexture"] [some 1] ])]
    m_materialPropertyDependencies := 0
    m_commonShaderCollection := ShaderCollectionPointer.pipelineEntry "common"
    EmptyShaderCollection := [] }

/-- A runtime context like `sampleRuntimeContext`, except that shader 1 has the option
"o_useTexture" too and the material does not own it there. -/
def mixedOwnershipContext : MaterialFunctor.RuntimeContext Int SampleOptionGroup Unit :=
  { m_materialProperties := sampleProperties
    m_allShaderCollections :=
      [("common",
        [ sampleItem "forward" ["o_useTexture"] [some 0],
          sampleItem "depth" ["o_useTexture"] [],
          sampleItem "shadow" ["o_other", "o_useTexture"] [some 1] ])]
    m_materialPropertyDependencies := 0
    m_commonShaderCollection := ShaderCollectionPointer.pipelineEntry "common"
    EmptyShaderCollection := [] }

/-- A runtime context whose common pipeline has two shaders that both have the option
"o_useTexture": the material does not own it on shader 0 and owns it on shader 1. -/
def unownedFirstContext : MaterialFunctor.RuntimeContext Int SampleOptionGroup Unit :=
  { m_materialProperties := sampleProperties
    m_allShaderCollections :=
      [("common",
        [ sampleItem "forward" ["o_useTexture"] [],
          sampleItem "depth" ["o_useTexture"] [some 0] ])]
    m_materialPropertyDependencies := 0
    m_commonShaderCollection := ShaderCollectionPointer.pipelineEntry "common"
    EmptyShaderCollection := [] }

/-- A shader collection map without a common pipeline: one pipeline "lowEnd" with one
shader. -/
def noCommonCollections : MaterialPipelineShaderCollections SampleOptionGroup Unit :=
  [("lowEnd", [sampleItem "forward" ["o_useTexture"] [some 0]])]

/-- A runtime context in which every shader that has the option "o_useTexture" has it
without the material owning it: shaders 1 and 2 of the common pipeline; shader 0 does not
have the option. -/
def unownedEverywhereContext : MaterialFunctor.RuntimeContext Int SampleOptionGroup Unit :=
  { m_materialProperties := sampleProperties
    m_allShaderCollections :=
      [("common",
        [ sampleItem "forward" ["o_other"] [some 0],
          sampleItem "depth" ["o_useTexture"] [],
          sampleItem "shadow" ["o_other", "o_useTexture"] [some 0] ])]
    m_materialPropertyDependencies := 0
    m_commonShaderCollection := ShaderCollectionPointer.pipelineEntry "common"
    EmptyShaderCollection := [] }

/-- C1. For dependency set `D` and dirty flags `F` of the same width `N`, `NeedsProcess`
is true exactly when some property bit below `N` is set in both; with no bit set in `D` it
is false for every `F`. -/
theorem needsProcess_iff_common_bit (N : Nat) (D F : MaterialPropertyFlags)
    (hD : D < 2 ^ N) (hF : F < 2 ^ N) :
    ((MaterialFunctor.mk D).NeedsProcess F = true ↔
        ∃ i, i < N ∧ MaterialPropertyFlags.test N D i = some true ∧
          MaterialPropertyFlags.test N F i = some true) ∧
      (D = 0 → (MaterialFunctor.mk D).NeedsProcess F = false) := by
  unfold MaterialFunctor.NeedsProcess MaterialPropertyFlags.any MaterialPropertyFlags.test
  refine ⟨⟨fun h => ?_, ?_⟩, ?_⟩
  · have hne : D &&& F ≠ 0 := by simpa using h
    obtain ⟨i, hi⟩ := Nat.ne_zero_implies_bit_true hne
    rw [Nat.testBit_and, Bool.and_eq_true] at hi
    have hiN : i < N := by
      by_contra hlt
      have hsmall : F < 2 ^ i :=
        lt_of_lt_of_le hF (Nat.pow_le_pow_right (by decide) (not_lt.mp hlt))
      rw [Nat.testBit_lt_two_pow hsmall] at hi
      exact absurd hi.2 (by decide)
    exact ⟨i, hiN, by simp [hiN, hi.1], by simp [hiN, hi.2]⟩
  · rintro ⟨i, hiN, h1, h2⟩
    simp only [hiN, if_true, Option.some.injEq] at h1 h2
    have hbit : (D &&& F).testBit i = true := by rw [Nat.testBit_and, h1, h2]; rfl
    simp only [bne_iff_ne, ne_eq]
    intro h0
    rw [h0] at hbit
    simp at hbit
  · intro h0
    subst h0
    simp

/-- Witness for C1 at width 8: `D = {2}` with `F = {5}` gives false, with `F = {2, 7}`
gives true. -/
theorem needsProcess_iff_common_bit_witness :
    (MaterialFunctor.mk 4).NeedsProcess 32 = false ∧
      (MaterialFunctor.mk 4).NeedsProcess 132 = true ∧
      ((MaterialFunctor.mk 4).NeedsProcess 132 = true ↔
        ∃ i, i < 8 ∧ MaterialPropertyFlags.test 8 4 i = some true ∧
          MaterialPropertyFlags.test 8 132 i = some true) :=
  ⟨by decide, by decide,
    (needsProcess_iff_common_bit 8 4 132 (by decide) (by decide)).1⟩


/-! ### Containers -/

theorem unordered_map.find_store {α : Type} (m : unordered_map α) (key : Name) (w : α)
    (k : Name) :
    unordered_map.find (unordered_map.store m key w) k =
      if k = key then (unordered_map.find m key).map (fun _ => w) else unordered_map.find m k := by
  induction m with
  | nil => simp [unordered_map.store, unordered_map.find]
  | cons e rest ih =>
    obtain ⟨k0, v0⟩ := e
    by_cases h0 : k0 = key
    · subst h0
      by_cases hk : k = k0
      · subst hk
        simp [unordered_map.store, unordered_map.find]
      · have hk' : ¬ k0 = k := fun h => hk h.symm
        simp [unordered_map.store, unordered_map.find, hk, hk']
    · by_cases hk : k = key
      · subst hk
        simp [unordered_map.store, unordered_map.find, h0, ih]
      · by_cases hk0 : k0 = k
        · subst hk0
          simp [unordered_map.store, unordered_map.find, h0]
        · simp [unordered_map.store, unordered_map.find, h0, hk0, ih, hk]

theorem unordered_map.keys_store {α : Type} (m : unordered_map α) (key : Name) (w : α) :
    (unordered_map.store m key w).map Prod.fst = m.map Prod.fst := by
  induction m with
  | nil => rfl
  | cons e rest ih =>
    obtain ⟨k0, v0⟩ := e
    by_cases h0 : k0 = key
    · simp [unordered_map.store, h0]
    · simp [unordered_map.store, h0, ih]

theorem unordered_set.mem_insert (s : unordered_set) (x y : Name) :
    y ∈ unordered_set.insert s x ↔ y ∈ s ∨ y = x := by
  unfold unordered_set.insert
  by_cases h : x ∈ s
  · simp only [h, if_true]
    constructor
    · exact Or.inl
    · rintro (h1 | h1)
      · exact h1
      · exact h1 ▸ h
  · simp [h]

theorem unordered_set.nodup_insert (s : unordered_set) (x : Name) (h : s.Nodup) :
    (unordered_set.insert s x).Nodup := by
  unfold unordered_set.insert
  by_cases hx : x ∈ s
  · simpa [hx] using h
  · simp only [hx, if_false]
    rw [List.nodup_append]
    refine ⟨h, List.nodup_singleton x, ?_⟩
    intro a ha hb
    simp only [List.mem_singleton] at hb
    exact hx (hb ▸ ha)


/-! ### Editor context: one call -/

section EditorOneCall

open MaterialFunctor.EditorContext

variable {V : Type} [BEq V]

/-- C2. A name-keyed setter whose identifier is present in the metadata map it addresses
and whose new value equals the record's current value of the attribute (for the four range
bounds: by the `==` of the value type, the negation of the `!=` the setter evaluates) returns
true and gives back the context as it was: both metadata maps and both changed-id sets are
unchanged, and nothing is reported. -/
theorem set_current_value_is_noop (tracing : Bool) (ctx : MaterialFunctor.EditorContext V)
    (id : Name) :
    (∀ metadata, unordered_map.find ctx.m_propertyMetadata id = some metadata →
      (∀ v, metadata.m_visibility = v →
        ctx.SetMaterialPropertyVisibility tracing id v = ⟨true, ctx, []⟩) ∧
      (∀ d, metadata.m_description = d →
        ctx.SetMaterialPropertyDescription tracing id d = ⟨true, ctx, []⟩) ∧
      (∀ x, (metadata.m_propertyRange.m_min == x) = true →
        ctx.SetMaterialPropertyMinValue tracing id x = ⟨true, ctx, []⟩) ∧
      (∀ x, (metadata.m_propertyRange.m_max == x) = true →
        ctx.SetMaterialPropertyMaxValue tracing id x = ⟨true, ctx, []⟩) ∧
      (∀ x, (metadata.m_propertyRange.m_softMin == x) = true →
        ctx.SetMaterialPropertySoftMinValue tracing id x = ⟨true, ctx, []⟩) ∧
      (∀ x, (metadata.m_propertyRange.m_softMax == x) = true →
        ctx.SetMaterialPropertySoftMaxValue tracing id x = ⟨true, ctx, []⟩)) ∧
    (∀ metadata, unordered_map.find ctx.m_propertyGroupMetadata id = some metadata →
      ∀ v, metadata.m_visibility = v →
        ctx.SetMaterialPropertyGroupVisibility tracing id v = ⟨true, ctx, []⟩) := by
  refine ⟨fun metadata hfind => ⟨?_, ?_, ?_, ?_, ?_, ?_⟩, fun metadata hfind v hv => ?_⟩
  · intro v hv
    simp [SetMaterialPropertyVisibility, QueryMaterialPropertyMetadata, hfind, hv]
  · intro d hd
    simp [SetMaterialPropertyDescription, QueryMaterialPropertyMetadata, hfind, hd]
  · intro x hx
    simp [SetMaterialPropertyMinValue, QueryMaterialPropertyMetadata, hfind, bne, hx]
  · intro x hx
    simp [SetMaterialPropertyMaxValue, QueryMaterialPropertyMetadata, hfind, bne, hx]
  · intro x hx
    simp [SetMaterialPropertySoftMinValue, QueryMaterialPropertyMetadata, hfind, bne, hx]
  · intro x hx
    simp [SetMaterialPropertySoftMaxValue, QueryMaterialPropertyMetadata, hfind, bne, hx]
  · simp [SetMaterialPropertyGroupVisibility, QueryMaterialPropertyGroupMetadata, hfind, hv]

/-- Witness for C2: "roughness" has visibility Enabled; setting it to Enabled returns true
and the changed-property set stays empty. -/
theorem set_current_value_is_noop_witness :
    (sampleEditorContext.SetMaterialPropertyVisibility true "roughness"
        MaterialPropertyVisibility.Enabled).result = true ∧
      (sampleEditorContext.SetMaterialPropertyVisibility true "roughness"
        MaterialPropertyVisibility.Enabled).state.m_updatedPropertiesOut = [] := by
  have h := ((set_current_value_is_noop true sampleEditorContext "roughness").1
    roughnessMetadata (by decide)).1 MaterialPropertyVisibility.Enabled rfl
  rw [h]
  exact ⟨rfl, rfl⟩


/-- C3. A name-keyed setter whose identifier is present in the metadata map it addresses and
whose new value differs from the record's current value of the attribute (for the four range
bounds: the `!=` of the value type gives true) returns true; afterwards the record under the
identifier holds the new value in that attribute and the identifier is in the changed-id set
of that map (property ids for the six property setters, group ids for the group setter). -/
theorem set_new_value_records_change (tracing : Bool) (ctx : MaterialFunctor.EditorContext V)
    (id : Name) :
    (∀ metadata, unordered_map.find ctx.m_propertyMetadata id = some metadata →
      (∀ v, metadata.m_visibility ≠ v →
        RecordsPropertyChange (ctx.SetMaterialPropertyVisibility tracing id v) id
          (fun r => r.m_visibility = v)) ∧
      (∀ d, metadata.m_description ≠ d →
        RecordsPropertyChange (ctx.SetMaterialPropertyDescription tracing id d) id
          (fun r => r.m_description = d)) ∧
      (∀ x, (metadata.m_propertyRange.m_min != x) = true →
        RecordsPropertyChange (ctx.SetMaterialPropertyMinValue tracing id x) id
          (fun r => r.m_propertyRange.m_min = x)) ∧
      (∀ x, (metadata.m_propertyRange.m_max != x) = true →
        RecordsPropertyChange (ctx.SetMaterialPropertyMaxValue tracing id x) id
          (fun r => r.m_propertyRange.m_max = x)) ∧
      (∀ x, (metadata.m_propertyRange.m_softMin != x) = true →
        RecordsPropertyChange (ctx.SetMaterialPropertySoftMinValue tracing id x) id
          (fun r => r.m_propertyRange.m_softMin = x)) ∧
      (∀ x, (metadata.m_propertyRange.m_softMax != x) = true →
        RecordsPropertyChange (ctx.SetMaterialPropertySoftMaxValue tracing id x) id
          (fun r => r.m_propertyRange.m_softMax = x))) ∧
    (∀ metadata, unordered_map.find ctx.m_propertyGroupMetadata id = some metadata →
      ∀ v, metadata.m_visibility ≠ v →
        RecordsGroupChange (ctx.SetMaterialPropertyGroupVisibility tracing id v) id
          (fun r => r.m_visibility = v)) := by
  refine ⟨fun metadata hfind => ⟨?_, ?_, ?_, ?_, ?_, ?_⟩, fun metadata hfind v hv => ?_⟩
  · intro v hv
    simp [RecordsPropertyChange, SetMaterialPropertyVisibility, QueryMaterialPropertyMetadata,
      hfind, hv, unordered_map.find_store, unordered_set.mem_insert]
  · intro d hd
    simp [RecordsPropertyChange, SetMaterialPropertyDescription, QueryMaterialPropertyMetadata,
      hfind, hd, unordered_map.find_store, unordered_set.mem_insert]
  · intro x hx
    simp [RecordsPropertyChange, SetMaterialPropertyMinValue, QueryMaterialPropertyMetadata,
      hfind, hx, unordered_map.find_store, unordered_set.mem_insert]
  · intro x hx
    simp [RecordsPropertyChange, SetMaterialPropertyMaxValue, QueryMaterialPropertyMetadata,
      hfind, hx, unordered_map.find_store, unordered_set.mem_insert]
  · intro x hx
    simp [RecordsPropertyChange, SetMaterialPropertySoftMinValue,
      QueryMaterialPropertyMetadata, hfind, hx, unordered_map.find_store,
      unordered_set.mem_insert]
  · intro x hx
    simp [RecordsPropertyChange, SetMaterialPropertySoftMaxValue,
      QueryMaterialPropertyMetadata, hfind, hx, unordered_map.find_store,
      unordered_set.mem_insert]
  · simp [RecordsGroupChange, SetMaterialPropertyGroupVisibility,
      QueryMaterialPropertyGroupMetadata, hfind, hv, unordered_map.find_store,
      unordered_set.mem_insert]

/-- Witness for C3: "roughness" has visibility Enabled; setting it to Disabled returns true,
the record then has visibility Disabled and the changed-property set is {"roughness"}. -/
theorem set_new_value_records_change_witness :
    RecordsPropertyChange
        (sampleEditorContext.SetMaterialPropertyVisibility true "roughness"
          MaterialPropertyVisibility.Disabled) "roughness"
        (fun r => r.m_visibility = MaterialPropertyVisibility.Disabled) ∧
      (sampleEditorContext.SetMaterialPropertyVisibility true "roughness"
        MaterialPropertyVisibility.Disabled).state.m_updatedPropertiesOut = ["roughness"] :=
  ⟨((set_new_value_records_change true sampleEditorContext "roughness").1
      roughnessMetadata (by decide)).1 MaterialPropertyVisibility.Disabled (by decide),
    by decide⟩

/-- C4. A name-keyed setter whose identifier is absent from the metadata map it addresses
(the property map for the six property setters, the group map for the group setter) returns
false and gives back the context as it was: both metadata maps and both changed-id sets are
unchanged.  Its only effect is the error it reports. -/
theorem set_unknown_identifier_fails (tracing : Bool) (ctx : MaterialFunctor.EditorContext V)
    (id : Name) :
    (unordered_map.find ctx.m_propertyMetadata id = none →
      (∀ v, ctx.SetMaterialPropertyVisibility tracing id v =
        ⟨false, ctx, AZ_Error tracing (Diagnostic.propertyMetadataNotFound id)⟩) ∧
      (∀ d, ctx.SetMaterialPropertyDescription tracing id d =
        ⟨false, ctx, AZ_Error tracing (Diagnostic.propertyMetadataNotFound id)⟩) ∧
      (∀ x, ctx.SetMaterialPropertyMinValue tracing id x =
        ⟨false, ctx, AZ_Error tracing (Diagnostic.propertyMetadataNotFound id)⟩) ∧
      (∀ x, ctx.SetMaterialPropertyMaxValue tracing id x =
        ⟨false, ctx, AZ_Error tracing (Diagnostic.propertyMetadataNotFound id)⟩) ∧
      (∀ x, ctx.SetMaterialPropertySoftMinValue tracing id x =
        ⟨false, ctx, AZ_Error tracing (Diagnostic.propertyMetadataNotFound id)⟩) ∧
      (∀ x, ctx.SetMaterialPropertySoftMaxValue tracing id x =
        ⟨false, ctx, AZ_Error tracing (Diagnostic.propertyMetadataNotFound id)⟩)) ∧
    (unordered_map.find ctx.m_propertyGroupMetadata id = none →
      ∀ v, ctx.SetMaterialPropertyGroupVisibility tracing id v =
        ⟨false, ctx, AZ_Error tracing (Diagnostic.propertyGroupMetadataNotFound id)⟩) := by
  refine ⟨fun hfind => ⟨?_, ?_, ?_, ?_, ?_, ?_⟩, fun hfind v => ?_⟩
  · intro v
    simp [SetMaterialPropertyVisibility, QueryMaterialPropertyMetadata, hfind]
  · intro d
    simp [SetMaterialPropertyDescription, QueryMaterialPropertyMetadata, hfind]
  · intro x
    simp [SetMaterialPropertyMinValue, QueryMaterialPropertyMetadata, hfind]
  · intro x
    simp [SetMaterialPropertyMaxValue, QueryMaterialPropertyMetadata, hfind]
  · intro x
    simp [SetMaterialPropertySoftMinValue, QueryMaterialPropertyMetadata, hfind]
  · intro x
    simp [SetMaterialPropertySoftMaxValue, QueryMaterialPropertyMetadata, hfind]
  · simp [SetMaterialPropertyGroupVisibility, QueryMaterialPropertyGroupMetadata, hfind]

/-- Witness for C4: "nonexistentProp" is no key of the property map of the sample context;
setting its description returns false and changes nothing. -/
theorem set_unknown_identifier_fails_witness :
    (sampleEditorContext.SetMaterialPropertyDescription true "nonexistentProp" "x").result
        = false ∧
      (sampleEditorContext.SetMaterialPropertyDescription true "nonexistentProp" "x").state
        = sampleEditorContext := by
  have h := ((set_unknown_identifier_fails true sampleEditorContext "nonexistentProp").1
    (by decide)).2.1 "x"
  rw [h]
  exact ⟨rfl, rfl⟩

end EditorOneCall


/-! ### Editor context: a pass of calls -/

section EditorPass

open MaterialFunctor.EditorContext

variable {V : Type} [BEq V]

/-- What one call does to the property metadata map and the changed-property set: nothing,
or one record is overwritten under an identifier and that identifier is inserted. -/
theorem MaterialFunctor.EditorContext.SetCall.run_property_side (tracing : Bool)
    (ctx : MaterialFunctor.EditorContext V) (call : SetCall V) :
    ((call.run tracing ctx).state.m_propertyMetadata = ctx.m_propertyMetadata ∧
        (call.run tracing ctx).state.m_updatedPropertiesOut = ctx.m_updatedPropertiesOut) ∨
      ∃ id r,
        (call.run tracing ctx).state.m_propertyMetadata =
            unordered_map.store ctx.m_propertyMetadata id r ∧
          (call.run tracing ctx).state.m_updatedPropertiesOut =
            unordered_set.insert ctx.m_updatedPropertiesOut id := by
  cases call with
  | groupVisibility id v =>
    left
    simp only [SetCall.run, SetMaterialPropertyGroupVisibility,
      QueryMaterialPropertyGroupMetadata]
    cases unordered_map.find ctx.m_propertyGroupMetadata id with
    | none => simp
    | some metadata => by_cases h : metadata.m_visibility = v <;> simp [h]
  | visibility id v =>
    simp only [SetCall.run, SetMaterialPropertyVisibility, QueryMaterialPropertyMetadata]
    cases unordered_map.find ctx.m_propertyMetadata id with
    | none => simp
    | some metadata =>
      by_cases h : metadata.m_visibility = v
      · simp [h]
      · right; exact ⟨id, _, by simp [h]; rfl⟩
  | description id d =>
    simp only [SetCall.run, SetMaterialPropertyDescription, QueryMaterialPropertyMetadata]
    cases unordered_map.find ctx.m_propertyMetadata id with
    | none => simp
    | some metadata =>
      by_cases h : metadata.m_description = d
      · simp [h]
      · right; exact ⟨id, _, by simp [h]; rfl⟩
  | minValue id x =>
    simp only [SetCall.run, SetMaterialPropertyMinValue, QueryMaterialPropertyMetadata]
    cases unordered_map.find ctx.m_propertyMetadata id with
    | none => simp
    | some metadata =>
      cases h : metadata.m_propertyRange.m_min != x
      · simp [h]
      · right; exact ⟨id, _, by simp [h]; rfl⟩
  | maxValue id x =>
    simp only [SetCall.run, SetMaterialPropertyMaxValue, QueryMaterialPropertyMetadata]
    cases unordered_map.find ctx.m_propertyMetadata id with
    | none => simp
    | some metadata =>
      cases h : metadata.m_propertyRange.m_max != x
      · simp [h]
      · right; exact ⟨id, _, by simp [h]; rfl⟩
  | softMinValue id x =>
    simp only [SetCall.run, SetMaterialPropertySoftMinValue, QueryMaterialPropertyMetadata]
    cases unordered_map.find ctx.m_propertyMetadata id with
    | none => simp
    | some metadata =>
      cases h : metadata.m_propertyRange.m_softMin != x
      · simp [h]
      · right; exact ⟨id, _, by simp [h]; rfl⟩
  | softMaxValue id x =>
    simp only [SetCall.run, SetMaterialPropertySoftMaxValue, QueryMaterialPropertyMetadata]
    cases unordered_map.find ctx.m_propertyMetadata id with
    | none => simp
    | some metadata =>
      cases h : metadata.m_propertyRange.m_softMax != x
      · simp [h]
      · right; exact ⟨id, _, by simp [h]; rfl⟩

/-- What one call does to the property group metadata map and the changed-group set:
nothing, or one record is overwritten under an identifier and that identifier is inserted. -/
theorem MaterialFunctor.EditorContext.SetCall.run_group_side (tracing : Bool)
    (ctx : MaterialFunctor.EditorContext V) (call : SetCall V) :
    ((call.run tracing ctx).state.m_propertyGroupMetadata = ctx.m_propertyGroupMetadata ∧
        (call.run tracing ctx).state.m_updatedPropertyGroupsOut =
          ctx.m_updatedPropertyGroupsOut) ∨
      ∃ id r,
        (call.run tracing ctx).state.m_propertyGroupMetadata =
            unordered_map.store ctx.m_propertyGroupMetadata id r ∧
          (call.run tracing ctx).state.m_updatedPropertyGroupsOut =
            unordered_set.insert ctx.m_updatedPropertyGroupsOut id := by
  cases call with
  | groupVisibility id v =>
    simp only [SetCall.run, SetMaterialPropertyGroupVisibility,
      QueryMaterialPropertyGroupMetadata]
    cases unordered_map.find ctx.m_propertyGroupMetadata id with
    | none => simp
    | some metadata =>
      by_cases h : metadata.m_visibility = v
      · simp [h]
      · right; exact ⟨id, _, by simp [h]; rfl⟩
  | visibility id v =>
    left
    simp only [SetCall.run, SetMaterialPropertyVisibility, QueryMaterialPropertyMetadata]
    cases unordered_map.find ctx.m_propertyMetadata id with
    | none => simp
    | some metadata => by_cases h : metadata.m_visibility = v <;> simp [h]
  | description id d =>
    left
    simp only [SetCall.run, SetMaterialPropertyDescription, QueryMaterialPropertyMetadata]
    cases unordered_map.find ctx.m_propertyMetadata id with
    | none => simp
    | some metadata => by_cases h : metadata.m_description = d <;> simp [h]
  | minValue id x =>
    left
    simp only [SetCall.run, SetMaterialPropertyMinValue, QueryMaterialPropertyMetadata]
    cases unordered_map.find ctx.m_propertyMetadata id with
    | none => simp
    | some metadata => cases h : metadata.m_propertyRange.m_min != x <;> simp [h]
  | maxValue id x =>
    left
    simp only [SetCall.run, SetMaterialPropertyMaxValue, QueryMaterialPropertyMetadata]
    cases unordered_map.find ctx.m_propertyMetadata id with
    | none => simp
    | some metadata => cases h : metadata.m_propertyRange.m_max != x <;> simp [h]
  | softMinValue id x =>
    left
    simp only [SetCall.run, SetMaterialPropertySoftMinValue, QueryMaterialPropertyMetadata]
    cases unordered_map.find ctx.m_propertyMetadata id with
    | none => simp
    | some metadata => cases h : metadata.m_propertyRange.m_softMin != x <;> simp [h]
  | softMaxValue id x =>
    left
    simp only [SetCall.run, SetMaterialPropertySoftMaxValue, QueryMaterialPropertyMetadata]
    cases unordered_map.find ctx.m_propertyMetadata id with
    | none => simp
    | some metadata => cases h : metadata.m_propertyRange.m_softMax != x <;> simp [h]


theorem MaterialFunctor.EditorContext.runCalls_append (tracing : Bool)
    (ctx : MaterialFunctor.EditorContext V) (pre post : List (SetCall V)) :
    runCalls tracing ctx (pre ++ post) = runCalls tracing (runCalls tracing ctx pre) post := by
  induction pre generalizing ctx with
  | nil => rfl
  | cons call rest ih => exact ih _

/-- The changed-id sets only grow during a pass. -/
theorem MaterialFunctor.EditorContext.runCalls_mem_mono (tracing : Bool)
    (ctx : MaterialFunctor.EditorContext V) (calls : List (SetCall V)) (id : Name) :
    (id ∈ ctx.m_updatedPropertiesOut →
        id ∈ (runCalls tracing ctx calls).m_updatedPropertiesOut) ∧
      (id ∈ ctx.m_updatedPropertyGroupsOut →
        id ∈ (runCalls tracing ctx calls).m_updatedPropertyGroupsOut) := by
  induction calls generalizing ctx with
  | nil => exact ⟨fun h => h, fun h => h⟩
  | cons call rest ih =>
    simp only [runCalls]
    refine ⟨fun h => (ih _).1 ?_, fun h => (ih _).2 ?_⟩
    · rcases SetCall.run_property_side tracing ctx call with ⟨_, h2⟩ | ⟨k, r, _, h2⟩
      · rw [h2]; exact h
      · rw [h2, unordered_set.mem_insert]; exact Or.inl h
    · rcases SetCall.run_group_side tracing ctx call with ⟨_, h2⟩ | ⟨k, r, _, h2⟩
      · rw [h2]; exact h
      · rw [h2, unordered_set.mem_insert]; exact Or.inl h

/-- A pass keeps the changed-id sets free of repetitions. -/
theorem MaterialFunctor.EditorContext.runCalls_nodup (tracing : Bool)
    (ctx : MaterialFunctor.EditorContext V) (calls : List (SetCall V)) :
    (ctx.m_updatedPropertiesOut.Nodup →
        (runCalls tracing ctx calls).m_updatedPropertiesOut.Nodup) ∧
      (ctx.m_updatedPropertyGroupsOut.Nodup →
        (runCalls tracing ctx calls).m_updatedPropertyGroupsOut.Nodup) := by
  induction calls generalizing ctx with
  | nil => exact ⟨fun h => h, fun h => h⟩
  | cons call rest ih =>
    simp only [runCalls]
    refine ⟨fun h => (ih _).1 ?_, fun h => (ih _).2 ?_⟩
    · rcases SetCall.run_property_side tracing ctx call with ⟨_, h2⟩ | ⟨k, r, _, h2⟩
      · rw [h2]; exact h
      · rw [h2]; exact unordered_set.nodup_insert _ _ h
    · rcases SetCall.run_group_side tracing ctx call with ⟨_, h2⟩ | ⟨k, r, _, h2⟩
      · rw [h2]; exact h
      · rw [h2]; exact unordered_set.nodup_insert _ _ h

/-- A call after which the record under `id` is another one than before has put `id` into
the changed-id set of that map. -/
theorem MaterialFunctor.EditorContext.SetCall.run_records_change (tracing : Bool)
    (ctx : MaterialFunctor.EditorContext V) (call : SetCall V) (id : Name) :
    (unordered_map.find (call.run tracing ctx).state.m_propertyMetadata id ≠
          unordered_map.find ctx.m_propertyMetadata id →
        id ∈ (call.run tracing ctx).state.m_updatedPropertiesOut) ∧
      (unordered_map.find (call.run tracing ctx).state.m_propertyGroupMetadata id ≠
          unordered_map.find ctx.m_propertyGroupMetadata id →
        id ∈ (call.run tracing ctx).state.m_updatedPropertyGroupsOut) := by
  constructor
  · intro hne
    rcases SetCall.run_property_side tracing ctx call with ⟨h1, _⟩ | ⟨k, r, h1, h2⟩
    · exact absurd (by rw [h1]) hne
    · rw [h1, unordered_map.find_store] at hne
      rw [h2, unordered_set.mem_insert]
      by_cases hk : id = k
      · exact Or.inr hk
      · rw [if_neg hk] at hne
        exact absurd rfl hne
  · intro hne
    rcases SetCall.run_group_side tracing ctx call with ⟨h1, _⟩ | ⟨k, r, h1, h2⟩
    · exact absurd (by rw [h1]) hne
    · rw [h1, unordered_map.find_store] at hne
      rw [h2, unordered_set.mem_insert]
      by_cases hk : id = k
      · exact Or.inr hk
      · rw [if_neg hk] at hne
        exact absurd rfl hne

/-- C8. In a pass of name-keyed setter calls that starts from empty changed-id sets, every
identifier occurs at most once in each changed-id set, and it occurs exactly once in the
changed-property set (changed-group set) as soon as one call of the pass left another record
under it in the property (group) metadata map than the call found, however many calls did. -/
theorem changed_id_recorded_once (tracing : Bool) (ctx : MaterialFunctor.EditorContext V)
    (calls : List (SetCall V)) (id : Name)
    (hp : ctx.m_updatedPropertiesOut = []) (hg : ctx.m_updatedPropertyGroupsOut = []) :
    List.count id (runCalls tracing ctx calls).m_updatedPropertiesOut ≤ 1 ∧
      List.count id (runCalls tracing ctx calls).m_updatedPropertyGroupsOut ≤ 1 ∧
      ((∃ pre call post, calls = pre ++ call :: post ∧
          unordered_map.find
              (call.run tracing (runCalls tracing ctx pre)).state.m_propertyMetadata id ≠
            unordered_map.find (runCalls tracing ctx pre).m_propertyMetadata id) →
        List.count id (runCalls tracing ctx calls).m_updatedPropertiesOut = 1) ∧
      ((∃ pre call post, calls = pre ++ call :: post ∧
          unordered_map.find
              (call.run tracing (runCalls tracing ctx pre)).state.m_propertyGroupMetadata id ≠
            unordered_map.find (runCalls tracing ctx pre).m_propertyGroupMetadata id) →
        List.count id (runCalls tracing ctx calls).m_updatedPropertyGroupsOut = 1) := by
  have hnp : (runCalls tracing ctx calls).m_updatedPropertiesOut.Nodup :=
    (runCalls_nodup tracing ctx calls).1 (by rw [hp]; exact List.nodup_nil)
  have hng : (runCalls tracing ctx calls).m_updatedPropertyGroupsOut.Nodup :=
    (runCalls_nodup tracing ctx calls).2 (by rw [hg]; exact List.nodup_nil)
  refine ⟨List.nodup_iff_count_le_one.mp hnp id, List.nodup_iff_count_le_one.mp hng id, ?_, ?_⟩
  · rintro ⟨pre, call, post, hcalls, hne⟩
    apply List.count_eq_one_of_mem hnp
    rw [hcalls, runCalls_append]
    simp only [runCalls]
    exact (runCalls_mem_mono tracing _ post id).1
      ((SetCall.run_records_change tracing _ call id).1 hne)
  · rintro ⟨pre, call, post, hcalls, hne⟩
    apply List.count_eq_one_of_mem hng
    rw [hcalls, runCalls_append]
    simp only [runCalls]
    exact (runCalls_mem_mono tracing _ post id).2
      ((SetCall.run_records_change tracing _ call id).2 hne)

/-- Witness for C8: the sample pass changes the visibility, the description and the minimum
of "roughness"; the changed-property set ends up holding "roughness" once. -/
theorem changed_id_recorded_once_witness :
    List.count "roughness"
        (runCalls true sampleEditorContext sampleCalls).m_updatedPropertiesOut = 1 ∧
      (runCalls true sampleEditorContext sampleCalls).m_updatedPropertiesOut = ["roughness"] :=
  ⟨(changed_id_recorded_once true sampleEditorContext sampleCalls "roughness" rfl rfl).2.2.1
      ⟨[], .visibility "roughness" MaterialPropertyVisibility.Disabled, sampleCalls.tail,
        rfl, by decide⟩,
    by decide⟩

end EditorPass


/-! ### Runtime context: setting a shader option -/

section ShaderOption

open MaterialFunctor.RuntimeContext

variable {V G R ValueType : Type}

/-- The loop body at an item that does not have the option unowned: the item gets the value
when the material owns the option, and the loop goes on. -/
theorem MaterialFunctor.RuntimeContext.body_of_not_unowned
    (api : ShaderOptionGroupApi G ValueType) (tracing : Bool) (name : Name) (value : ValueType)
    (didSetOne : Bool) (item : ShaderCollection.Item G R)
    (h : item.HasUnownedOption api name = false) :
    SetShaderOptionValueHelper.body api tracing name value didSetOne item =
      ItemStep.next (item.applyToOwned api name value)
        (didSetOne || (item.OwnsOption api name && item.SetValueSucceeds api name value)) := by
  unfold SetShaderOptionValueHelper.body ShaderCollection.Item.applyToOwned
    ShaderCollection.Item.OwnsOption ShaderCollection.Item.SetValueSucceeds
  unfold ShaderCollection.Item.HasUnownedOption at h
  cases hv : (api.FindShaderOptionIndex item.GetShaderOptions name).IsValid
  · simp [hv]
  · rw [hv] at h
    have ho : item.MaterialOwnsShaderOption
        (api.FindShaderOptionIndex item.GetShaderOptions name) = true := by simpa using h
    cases hs : (api.SetValue item.GetShaderOptions
        (api.FindShaderOptionIndex item.GetShaderOptions name) value).1 <;>
      simp [hv, ho, hs]

/-- The loop body at an item that has the option unowned: `return false`. -/
theorem MaterialFunctor.RuntimeContext.body_of_unowned
    (api : ShaderOptionGroupApi G ValueType) (tracing : Bool) (name : Name) (value : ValueType)
    (didSetOne : Bool) (item : ShaderCollection.Item G R)
    (h : item.HasUnownedOption api name = true) :
    SetShaderOptionValueHelper.body api tracing name value didSetOne item =
      ItemStep.returned false
        (AZ_Error tracing (Diagnostic.shaderOptionNotOwned name) ++
          AZ_Assert tracing (!didSetOne) Diagnostic.ownershipAssertFailed) := by
  unfold SetShaderOptionValueHelper.body
  unfold ShaderCollection.Item.HasUnownedOption at h
  simp only [Bool.and_eq_true, Bool.not_eq_true'] at h
  simp [h.1, h.2]

/-- The inner loop over items none of which has the option unowned, followed by more items. -/
theorem MaterialFunctor.RuntimeContext.itemLoop_append
    (api : ShaderOptionGroupApi G ValueType) (tracing : Bool) (name : Name) (value : ValueType)
    (items rest : ShaderCollection G R) (didSetOne : Bool)
    (h : ∀ item ∈ items, item.HasUnownedOption api name = false) :
    SetShaderOptionValueHelper.itemLoop api tracing name value (items ++ rest) didSetOne =
      (items.map (fun item => item.applyToOwned api name value) ++
          (SetShaderOptionValueHelper.itemLoop api tracing name value rest
            (didSetOne || items.any (fun item =>
              item.OwnsOption api name && item.SetValueSucceeds api name value))).1,
        (SetShaderOptionValueHelper.itemLoop api tracing name value rest
          (didSetOne || items.any (fun item =>
            item.OwnsOption api name && item.SetValueSucceeds api name value))).2) := by
  induction items generalizing didSetOne with
  | nil => simp
  | cons item more ih =>
    have h1 := h item (List.mem_cons_self _ _)
    have h2 : ∀ i ∈ more, i.HasUnownedOption api name = false :=
      fun i hi => h i (List.mem_cons_of_mem _ hi)
    rw [List.cons_append, SetShaderOptionValueHelper.itemLoop,
      body_of_not_unowned api tracing name value didSetOne item h1]
    simp only [ih _ h2, List.map_cons, List.any_cons, Bool.or_assoc, List.cons_append]

/-- The inner loop at an item that has the option unowned stops there. -/
theorem MaterialFunctor.RuntimeContext.itemLoop_unowned
    (api : ShaderOptionGroupApi G ValueType) (tracing : Bool) (name : Name) (value : ValueType)
    (item : ShaderCollection.Item G R) (rest : ShaderCollection G R) (didSetOne : Bool)
    (h : item.HasUnownedOption api name = true) :
    SetShaderOptionValueHelper.itemLoop api tracing name value (item :: rest) didSetOne =
      (item :: rest, LoopExit.returned false
        (AZ_Error tracing (Diagnostic.shaderOptionNotOwned name) ++
          AZ_Assert tracing (!didSetOne) Diagnostic.ownershipAssertFailed)) := by
  simp only [SetShaderOptionValueHelper.itemLoop,
    body_of_unowned api tracing name value didSetOne item h]

/-- The outer loop over pipelines no item of which has the option unowned, followed by more
pipelines. -/
theorem MaterialFunctor.RuntimeContext.pipelineLoop_append
    (api : ShaderOptionGroupApi G ValueType) (tracing : Bool) (name : Name) (value : ValueType)
    (collections rest : MaterialPipelineShaderCollections G R) (didSetOne : Bool)
    (h : ∀ pair ∈ collections, ∀ item ∈ pair.2, item.HasUnownedOption api name = false) :
    SetShaderOptionValueHelper.pipelineLoop api tracing name value (collections ++ rest)
        didSetOne =
      (MaterialPipelineShaderCollections.applyToOwned api name value collections ++
          (SetShaderOptionValueHelper.pipelineLoop api tracing name value rest
            (didSetOne || collections.any (fun pair => pair.2.any (fun item =>
              item.OwnsOption api name && item.SetValueSucceeds api name value)))).1,
        (SetShaderOptionValueHelper.pipelineLoop api tracing name value rest
          (didSetOne || collections.any (fun pair => pair.2.any (fun item =>
            item.OwnsOption api name && item.SetValueSucceeds api name value)))).2) := by
  induction collections generalizing didSetOne with
  | nil => simp [MaterialPipelineShaderCollections.applyToOwned]
  | cons pair more ih =>
    have h1 := h pair (List.mem_cons_self _ _)
    have h2 : ∀ q ∈ more, ∀ item ∈ q.2, item.HasUnownedOption api name = false :=
      fun q hq => h q (List.mem_cons_of_mem _ hq)
    have hitems := itemLoop_append api tracing name value pair.2 [] didSetOne h1
    simp only [List.append_nil, SetShaderOptionValueHelper.itemLoop] at hitems
    rw [List.cons_append, SetShaderOptionValueHelper.pipelineLoop, hitems]
    simp only [ih _ h2, MaterialPipelineShaderCollections.applyToOwned, List.map_cons,
      List.any_cons, Bool.or_assoc, List.cons_append]


theorem ShaderCollection.Item.applyToOwned_of_not_owns
    (api : ShaderOptionGroupApi G ValueType) (name : Name) (value : ValueType)
    (item : ShaderCollection.Item G R) (h : item.OwnsOption api name = false) :
    item.applyToOwned api name value = item := by
  simp [ShaderCollection.Item.applyToOwned, h]

/-- The inner loop over items none of which owns the option changes no item and either runs
to its end with `didSetOne` as it was or returns false. -/
theorem MaterialFunctor.RuntimeContext.itemLoop_no_owner
    (api : ShaderOptionGroupApi G ValueType) (tracing : Bool) (name : Name) (value : ValueType)
    (items : ShaderCollection G R) (didSetOne : Bool)
    (h : ∀ item ∈ items, item.OwnsOption api name = false) :
    (SetShaderOptionValueHelper.itemLoop api tracing name value items didSetOne).1 = items ∧
      ((SetShaderOptionValueHelper.itemLoop api tracing name value items didSetOne).2 =
          LoopExit.completed didSetOne ∨
        ∃ log, (SetShaderOptionValueHelper.itemLoop api tracing name value items didSetOne).2 =
          LoopExit.returned false log) := by
  induction items with
  | nil => exact ⟨rfl, Or.inl rfl⟩
  | cons item more ih =>
    have h1 := h item (List.mem_cons_self _ _)
    have h2 : ∀ i ∈ more, i.OwnsOption api name = false :=
      fun i hi => h i (List.mem_cons_of_mem _ hi)
    cases hu : item.HasUnownedOption api name
    · rw [SetShaderOptionValueHelper.itemLoop,
        body_of_not_unowned api tracing name value didSetOne item hu]
      simp only [h1, Bool.false_and, Bool.or_false,
        ShaderCollection.Item.applyToOwned_of_not_owns api name value item h1]
      exact ⟨by rw [(ih h2).1], (ih h2).2⟩
    · rw [itemLoop_unowned api tracing name value item more didSetOne hu]
      exact ⟨rfl, Or.inr ⟨_, rfl⟩⟩

/-- The outer loop over pipelines no item of which owns the option changes nothing and either
runs to its end with `didSetOne` as it was or returns false. -/
theorem MaterialFunctor.RuntimeContext.pipelineLoop_no_owner
    (api : ShaderOptionGroupApi G ValueType) (tracing : Bool) (name : Name) (value : ValueType)
    (collections : MaterialPipelineShaderCollections G R) (didSetOne : Bool)
    (h : ∀ pair ∈ collections, ∀ item ∈ pair.2, item.OwnsOption api name = false) :
    (SetShaderOptionValueHelper.pipelineLoop api tracing name value collections didSetOne).1 =
        collections ∧
      ((SetShaderOptionValueHelper.pipelineLoop api tracing name value collections
            didSetOne).2 = LoopExit.completed didSetOne ∨
        ∃ log, (SetShaderOptionValueHelper.pipelineLoop api tracing name value collections
            didSetOne).2 = LoopExit.returned false log) := by
  induction collections with
  | nil => exact ⟨rfl, Or.inl rfl⟩
  | cons pair more ih =>
    have h1 := itemLoop_no_owner api tracing name value pair.2 didSetOne
      (h pair (List.mem_cons_self _ _))
    have h2 := ih (fun q hq => h q (List.mem_cons_of_mem _ hq))
    rw [SetShaderOptionValueHelper.pipelineLoop]
    rcases h1 with ⟨hitems, hexit | ⟨log, hexit⟩⟩
    · rw [show SetShaderOptionValueHelper.itemLoop api tracing name value pair.2 didSetOne =
        (pair.2, LoopExit.completed didSetOne) from Prod.ext hitems hexit]
      exact ⟨by simp only [h2.1], h2.2⟩
    · rw [show SetShaderOptionValueHelper.itemLoop api tracing name value pair.2 didSetOne =
        (pair.2, LoopExit.returned false log) from Prod.ext hitems hexit]
      exact ⟨rfl, Or.inr ⟨_, rfl⟩⟩

/-- C6. When no shader item of any pipeline owns an option of the given name (the name is
in no item's layout, or only in layouts of items for which `MaterialOwnsShaderOption` is
false), `SetShaderOptionValue` returns false and the context, with the whole shader
collection map, is as before. -/
theorem set_option_without_owner_fails (api : ShaderOptionGroupApi G ValueType)
    (tracing : Bool) (ctx : MaterialFunctor.RuntimeContext V G R) (name : Name)
    (value : ValueType)
    (h : ∀ pair ∈ ctx.m_allShaderCollections, ∀ item ∈ pair.2,
      item.OwnsOption api name = false) :
    (SetShaderOptionValue api tracing ctx name value).result = false ∧
      (SetShaderOptionValue api tracing ctx name value).state = ctx := by
  obtain ⟨hmap, hexit⟩ := pipelineLoop_no_owner api tracing name value
    ctx.m_allShaderCollections false h
  unfold SetShaderOptionValue SetShaderOptionValueHelper
  rcases hexit with hexit | ⟨log, hexit⟩
  · rw [show SetShaderOptionValueHelper.pipelineLoop api tracing name value
        ctx.m_allShaderCollections false = (ctx.m_allShaderCollections, LoopExit.completed false)
      from Prod.ext hmap hexit]
    exact ⟨rfl, rfl⟩
  · rw [show SetShaderOptionValueHelper.pipelineLoop api tracing name value
        ctx.m_allShaderCollections false =
          (ctx.m_allShaderCollections, LoopExit.returned false log)
      from Prod.ext hmap hexit]
    exact ⟨rfl, rfl⟩

/-- Witness for C6: no shader of the sample context has an option "o_missing". -/
theorem set_option_without_owner_fails_witness :
    (SetShaderOptionValue sampleApi true sampleRuntimeContext "o_missing" 1).result = false ∧
      (SetShaderOptionValue sampleApi true sampleRuntimeContext "o_missing" 1).state =
        sampleRuntimeContext :=
  set_option_without_owner_fails sampleApi true sampleRuntimeContext "o_missing" 1
    (by decide)


/-- C5, as the code has it. When no shader item of any pipeline has the option without the
material owning it, `SetShaderOptionValue` calls `SetValue` on every item that owns the
option, in every pipeline, and leaves every other item as it was; it returns true exactly
when `SetValue` returned true for at least one of the owning items. -/
theorem set_option_applies_to_all_owners (api : ShaderOptionGroupApi G ValueType)
    (tracing : Bool) (ctx : MaterialFunctor.RuntimeContext V G R) (name : Name)
    (value : ValueType)
    (h : ∀ pair ∈ ctx.m_allShaderCollections, ∀ item ∈ pair.2,
      item.HasUnownedOption api name = false) :
    (SetShaderOptionValue api tracing ctx name value).state =
        { ctx with
          m_allShaderCollections :=
            MaterialPipelineShaderCollections.applyToOwned api name value
              ctx.m_allShaderCollections } ∧
      ((SetShaderOptionValue api tracing ctx name value).result = true ↔
        ∃ pair ∈ ctx.m_allShaderCollections, ∃ item ∈ pair.2,
          item.OwnsOption api name = true ∧ item.SetValueSucceeds api name value = true) := by
  have hloop := pipelineLoop_append api tracing name value ctx.m_allShaderCollections []
    false h
  simp only [List.append_nil, SetShaderOptionValueHelper.pipelineLoop, Bool.false_or]
    at hloop
  unfold SetShaderOptionValue SetShaderOptionValueHelper
  rw [hloop]
  refine ⟨rfl, ?_⟩
  simp only [List.any_eq_true, Bool.and_eq_true]

/-- Witness for C5 as the code has it: three shaders in the common pipeline, "o_useTexture"
owned on shaders 0 and 2 and absent on shader 1; the value 1 is stored on shaders 0 and 2 and
the call returns true. -/
theorem set_option_applies_to_all_owners_witness :
    (SetShaderOptionValue sampleApi true sampleRuntimeContext "o_useTexture" 1).result = true ∧
      (SetShaderOptionValue sampleApi true sampleRuntimeContext
          "o_useTexture" 1).state.m_allShaderCollections =
        [("common",
          [ { sampleItem "forward" ["o_useTexture"] [some 0] with
              m_shaderOptionGroup := ⟨["o_useTexture"], [1]⟩ },
            sampleItem "depth" ["o_other"] [some 0],
            { sampleItem "shadow" ["o_other", "o_useTexture"] [some 1] with
              m_shaderOptionGroup := ⟨["o_other", "o_useTexture"], [0, 1]⟩ } ])] :=
  ⟨(set_option_applies_to_all_owners sampleApi true sampleRuntimeContext "o_useTexture" 1
      (by decide)).2.mpr (by decide),
    by decide⟩

/-- C5 as stated fails. In `unownedFirstContext` the material owns "o_useTexture" on one
shader (shader 1), yet the call returns false and shader 1 keeps the value 0: the loop
returned at shader 0, which has the option unowned.  In `sampleRuntimeContext` the two
shaders that have the option own it, yet the call returns false for the value 5, which
`SetValue` refuses. -/
theorem set_option_owned_may_fail :
    (unownedFirstContext.m_allShaderCollections.map (fun pair =>
        (pair.2.filter (fun item => item.OwnsOption sampleApi "o_useTexture")).length)) = [1] ∧
      SetShaderOptionValue sampleApi true unownedFirstContext "o_useTexture" 1 =
        ⟨false, unownedFirstContext, [Diagnostic.shaderOptionNotOwned "o_useTexture"]⟩ ∧
      (sampleRuntimeContext.m_allShaderCollections.map (fun pair =>
        (pair.2.filter (fun item => item.OwnsOption sampleApi "o_useTexture")).length)) = [2] ∧
      (SetShaderOptionValue sampleApi true sampleRuntimeContext "o_useTexture" 5).result
        = false := by
  refine ⟨by decide, rfl, by decide, by decide⟩

/-- In a list with an element satisfying `p` there is a first such element. -/
theorem List.exists_first_of_exists {α : Type} (p : α → Bool) (l : List α)
    (h : ∃ a ∈ l, p a = true) :
    ∃ l1 a l2, l = l1 ++ a :: l2 ∧ (∀ b ∈ l1, p b = false) ∧ p a = true := by
  induction l with
  | nil => obtain ⟨a, ha, _⟩ := h; cases ha
  | cons b rest ih =>
    cases hb : p b
    · have hrest : ∃ a ∈ rest, p a = true := by
        obtain ⟨a, ha, hpa⟩ := h
        rcases List.mem_cons.mp ha with rfl | ha
        · rw [hb] at hpa; cases hpa
        · exact ⟨a, ha, hpa⟩
      obtain ⟨l1, a, l2, hl, hl1, ha⟩ := ih hrest
      refine ⟨b :: l1, a, l2, by rw [hl]; rfl, ?_, ha⟩
      intro c hc
      rcases List.mem_cons.mp hc with rfl | hc
      · exact hb
      · exact hl1 c hc
    · exact ⟨[], b, rest, rfl, fun c hc => absurd hc (List.not_mem_nil c), hb⟩

/-- C7. When some shader item of some pipeline has the option in its layout without the
material owning it, `SetShaderOptionValue` returns false, and the call stops at the first
such item in iteration order: the map afterwards is the map before with `SetValue` done to
the owning items that come before that item, while that item, the items after it in its
pipeline and all later pipelines are as they were. -/
theorem set_option_aborts_at_first_unowned (api : ShaderOptionGroupApi G ValueType)
    (tracing : Bool) (ctx : MaterialFunctor.RuntimeContext V G R) (name : Name)
    (value : ValueType)
    (h : ∃ pair ∈ ctx.m_allShaderCollections, ∃ item ∈ pair.2,
      item.HasUnownedOption api name = true) :
    (SetShaderOptionValue api tracing ctx name value).result = false ∧
      ∃ before pipeline earlier first later after,
        ctx.m_allShaderCollections =
            before ++ (pipeline, earlier ++ first :: later) :: after ∧
          (∀ pair ∈ before, ∀ item ∈ pair.2, item.HasUnownedOption api name = false) ∧
          (∀ item ∈ earlier, item.HasUnownedOption api name = false) ∧
          first.HasUnownedOption api name = true ∧
          (SetShaderOptionValue api tracing ctx name value).state.m_allShaderCollections =
            MaterialPipelineShaderCollections.applyToOwned api name value before ++
              (pipeline, earlier.map (fun item => item.applyToOwned api name value) ++
                first :: later) :: after := by
  have hpair : ∃ pair ∈ ctx.m_allShaderCollections,
      pair.2.any (fun item => item.HasUnownedOption api name) = true := by
    obtain ⟨pair, hp, item, hi, hu⟩ := h
    exact ⟨pair, hp, List.any_eq_true.mpr ⟨item, hi, hu⟩⟩
  obtain ⟨before, pair, after, hmap, hbefore, hany⟩ :=
    List.exists_first_of_exists
      (fun pair : Name × ShaderCollection G R =>
        pair.2.any (fun item => item.HasUnownedOption api name))
      ctx.m_allShaderCollections hpair
  obtain ⟨earlier, first, later, hitems, hearlier, hfirst⟩ :=
    List.exists_first_of_exists (fun item : ShaderCollection.Item G R =>
      item.HasUnownedOption api name) pair.2 (List.any_eq_true.mp hany)
  have hclean : ∀ q ∈ before, ∀ item ∈ q.2, item.HasUnownedOption api name = false := by
    intro q hq item hi
    have hq2 := hbefore q hq
    cases hu : item.HasUnownedOption api name
    · rfl
    · have : q.2.any (fun item => item.HasUnownedOption api name) = true :=
        List.any_eq_true.mpr ⟨item, hi, hu⟩
      simp only at hq2
      rw [hq2] at this
      cases this
  have hloop := pipelineLoop_append api tracing name value before (pair :: after) false hclean
  rw [SetShaderOptionValueHelper.pipelineLoop, hitems,
    itemLoop_append api tracing name value earlier (first :: later) _ hearlier,
    itemLoop_unowned api tracing name value first later _ hfirst] at hloop
  simp only at hloop
  unfold SetShaderOptionValue SetShaderOptionValueHelper
  rw [hmap, hloop]
  refine ⟨rfl, before, pair.1, earlier, first, later, after, ?_, hclean, hearlier, hfirst, rfl⟩
  rw [← hitems]

/-- Witness for C7: in `mixedOwnershipContext` shader 1 has "o_useTexture" unowned; the call
returns false, shader 0 was given the value, shaders 1 and 2 are as before. -/
theorem set_option_aborts_at_first_unowned_witness :
    (SetShaderOptionValue sampleApi true mixedOwnershipContext "o_useTexture" 1).result
        = false ∧
      (SetShaderOptionValue sampleApi true mixedOwnershipContext
          "o_useTexture" 1).state.m_allShaderCollections =
        [("common",
          [ { sampleItem "forward" ["o_useTexture"] [some 0] with
              m_shaderOptionGroup := ⟨["o_useTexture"], [1]⟩ },
            sampleItem "depth" ["o_useTexture"] [],
            sampleItem "shadow" ["o_other", "o_useTexture"] [some 1] ])] :=
  ⟨(set_option_aborts_at_first_unowned sampleApi true mixedOwnershipContext "o_useTexture" 1
      (by decide)).1,
    by decide⟩

end ShaderOption


/-! ### Property reads and the access guard -/

section PropertyAccess

variable {V G R : Type}

/-- C9. For a property index, within the width of the dependency set, whose bit is not set
in the dependency set of the context, `GetMaterialPropertyValue` of the runtime context and
of the editor context returns the value the property collection holds for the index; with
tracing compiled in it emits exactly one diagnostic for the access, without tracing it emits
none and returns the same value. -/
theorem undeclared_read_returns_value (PropertyCountMax : Nat)
    (rctx : MaterialFunctor.RuntimeContext V G R) (ectx : MaterialFunctor.EditorContext V)
    (p : MaterialPropertyIndex)
    (hr : MaterialPropertyFlags.test PropertyCountMax rctx.m_materialPropertyDependencies
      p.GetIndex = some false)
    (he : MaterialPropertyFlags.test PropertyCountMax ectx.m_materialPropertyDependencies
      p.GetIndex = some false) :
    ((∃ d, rctx.GetMaterialPropertyValue PropertyCountMax true p =
          some (rctx.m_materialProperties.GetPropertyValue p, [d])) ∧
        rctx.GetMaterialPropertyValue PropertyCountMax false p =
          some (rctx.m_materialProperties.GetPropertyValue p, [])) ∧
      ((∃ d, ectx.GetMaterialPropertyValue PropertyCountMax true p =
          some (ectx.m_materialProperties.GetPropertyValue p, [d])) ∧
        ectx.GetMaterialPropertyValue PropertyCountMax false p =
          some (ectx.m_materialProperties.GetPropertyValue p, [])) := by
  refine ⟨⟨⟨Diagnostic.unregisteredPropertyAccess
      (match rctx.GetMaterialPropertiesLayout.GetPropertyDescriptor p with
        | some descriptor => descriptor.GetName
        | none => "<unknown>"), ?_⟩, ?_⟩,
    ⟨⟨Diagnostic.unregisteredPropertyAccess
      (match ectx.GetMaterialPropertiesLayout.GetPropertyDescriptor p with
        | some descriptor => descriptor.GetName
        | none => "<unknown>"), ?_⟩, ?_⟩⟩
  · simp [MaterialFunctor.RuntimeContext.GetMaterialPropertyValue, CheckPropertyAccess,
      hr, AZ_Error]
  · simp [MaterialFunctor.RuntimeContext.GetMaterialPropertyValue, CheckPropertyAccess]
  · simp [MaterialFunctor.EditorContext.GetMaterialPropertyValue, CheckPropertyAccess,
      he, AZ_Error]
  · simp [MaterialFunctor.EditorContext.GetMaterialPropertyValue, CheckPropertyAccess]

/-- Witness for C9, at width 8: the sample contexts declare no dependency; reading property 0
gives the stored value 7 and one diagnostic, which names "roughness". -/
theorem undeclared_read_returns_value_witness :
    sampleRuntimeContext.GetMaterialPropertyValue 8 true ⟨0⟩ =
        some (7, [Diagnostic.unregisteredPropertyAccess "roughness"]) ∧
      ∃ d, sampleEditorContext.GetMaterialPropertyValue 8 true ⟨0⟩ =
        some (sampleEditorContext.m_materialProperties.GetPropertyValue ⟨0⟩, [d]) :=
  ⟨by decide,
    (undeclared_read_returns_value 8 sampleRuntimeContext sampleEditorContext ⟨0⟩
      (by decide) (by decide)).2.1⟩

/-- C10. With tracing compiled in, `CheckPropertyAccess`, called with a property index
within the width of the dependency set, emits a diagnostic exactly when the bit of the index
is not set in the dependency set; the diagnostic then shows the name of the descriptor the
layout gives for the index, or "<unknown>" when the layout gives none.  The check yields
diagnostics only: the value read through either context is the value of the property
collection whatever the check found, in both builds. -/
theorem checkPropertyAccess_reports_unset_bit (PropertyCountMax : Nat)
    (index : MaterialPropertyIndex) (materialPropertyDependencies : MaterialPropertyFlags)
    (materialPropertiesLayout : MaterialPropertiesLayout)
    (hwidth : index.GetIndex < PropertyCountMax) :
    (∃ log,
        CheckPropertyAccess PropertyCountMax true index materialPropertyDependencies
            materialPropertiesLayout = some log ∧
          (log ≠ [] ↔
            MaterialPropertyFlags.test PropertyCountMax materialPropertyDependencies
              index.GetIndex = some false)) ∧
      (MaterialPropertyFlags.test PropertyCountMax materialPropertyDependencies
          index.GetIndex = some false →
        (∀ descriptor, materialPropertiesLayout.GetPropertyDescriptor index = some descriptor →
          CheckPropertyAccess PropertyCountMax true index materialPropertyDependencies
            materialPropertiesLayout =
              some [Diagnostic.unregisteredPropertyAccess descriptor.GetName]) ∧
        (materialPropertiesLayout.GetPropertyDescriptor index = none →
          CheckPropertyAccess PropertyCountMax true index materialPropertyDependencies
            materialPropertiesLayout =
              some [Diagnostic.unregisteredPropertyAccess "<unknown>"])) ∧
      (∀ (tracing : Bool) (rctx : MaterialFunctor.RuntimeContext V G R), ∃ log,
        rctx.GetMaterialPropertyValue PropertyCountMax tracing index =
          some (rctx.m_materialProperties.GetPropertyValue index, log)) ∧
      (∀ (tracing : Bool) (ectx : MaterialFunctor.EditorContext V), ∃ log,
        ectx.GetMaterialPropertyValue PropertyCountMax tracing index =
          some (ectx.m_materialProperties.GetPropertyValue index, log)) := by
  refine ⟨?_, ?_, fun tracing rctx => ?_, fun tracing ectx => ?_⟩
  · cases h : Nat.testBit materialPropertyDependencies index.GetIndex <;>
      simp [CheckPropertyAccess, MaterialPropertyFlags.test, hwidth, h, AZ_Error]
  · intro h
    constructor
    · intro descriptor hd
      simp [CheckPropertyAccess, h, AZ_Error, hd]
    · intro hd
      simp [CheckPropertyAccess, h, AZ_Error, hd]
  · cases tracing
    · exact ⟨[], by
        simp [MaterialFunctor.RuntimeContext.GetMaterialPropertyValue, CheckPropertyAccess]⟩
    · cases h : Nat.testBit rctx.m_materialPropertyDependencies index.GetIndex <;>
        simp [MaterialFunctor.RuntimeContext.GetMaterialPropertyValue, CheckPropertyAccess,
          MaterialPropertyFlags.test, hwidth, h]
  · cases tracing
    · exact ⟨[], by
        simp [MaterialFunctor.EditorContext.GetMaterialPropertyValue, CheckPropertyAccess]⟩
    · cases h : Nat.testBit ectx.m_materialPropertyDependencies index.GetIndex <;>
        simp [MaterialFunctor.EditorContext.GetMaterialPropertyValue, CheckPropertyAccess,
          MaterialPropertyFlags.test, hwidth, h]

/-- Witness for C10, at width 8: with dependency set {0}, an access to property 0 is silent,
and an access to property 3, for which the sample layout has no descriptor, is reported as
"<unknown>". -/
theorem checkPropertyAccess_reports_unset_bit_witness :
    CheckPropertyAccess 8 true ⟨0⟩ 1 sampleProperties.GetMaterialPropertiesLayout = some [] ∧
      CheckPropertyAccess 8 true ⟨3⟩ 1 sampleProperties.GetMaterialPropertiesLayout =
        some [Diagnostic.unregisteredPropertyAccess "<unknown>"] :=
  ⟨by decide,
    ((@checkPropertyAccess_reports_unset_bit Int Unit Unit 8 ⟨3⟩ 1
      sampleProperties.GetMaterialPropertiesLayout (by decide)).2.1 (by decide)).2
      (by decide)⟩

end PropertyAccess


/-! ### Editor context: frame of a call -/

section EditorFrame

open MaterialFunctor.EditorContext

/-- A context that differs from `ctx` at most by one record stored under `id`, related by
`agree` to the one found there, and by the changed-property set, is within the frame of a
property setter. -/
theorem MaterialFunctor.EditorContext.propertySetterFrame_store {V : Type}
    (ctx : MaterialFunctor.EditorContext V) (id : Name)
    (agree : MaterialPropertyDynamicMetadata V → MaterialPropertyDynamicMetadata V → Prop)
    (r r1 : MaterialPropertyDynamicMetadata V) (updated : unordered_set)
    (hfind : unordered_map.find ctx.m_propertyMetadata id = some r) (hagree : agree r r1) :
    PropertySetterFrame ctx
      { ctx with
        m_propertyMetadata := unordered_map.store ctx.m_propertyMetadata id r1
        m_updatedPropertiesOut := updated } id agree := by
  refine ⟨fun k hk => ?_, fun r0 h0 => ?_, fun h0 => ?_, rfl, rfl⟩
  · simp only [unordered_map.find_store, if_neg hk]
  · rw [hfind] at h0
    cases h0
    exact ⟨r1, by simp [unordered_map.find_store, hfind], hagree⟩
  · rw [hfind] at h0
    cases h0

/-- The context itself is within the frame of a property setter when `agree` holds of every
record and itself. -/
theorem MaterialFunctor.EditorContext.propertySetterFrame_refl {V : Type}
    (ctx : MaterialFunctor.EditorContext V) (id : Name)
    (agree : MaterialPropertyDynamicMetadata V → MaterialPropertyDynamicMetadata V → Prop)
    (hrefl : ∀ r, agree r r) :
    PropertySetterFrame ctx ctx id agree :=
  ⟨fun _ _ => rfl, fun r h => ⟨r, h, hrefl r⟩, fun h => h, rfl, rfl⟩

variable {V : Type} [BEq V]

/-- C19. Each of the six property setters changes at most the attribute it names on the
record under its identifier: the other attributes of that record, the records under other
keys, the property group metadata map and the changed-group set are as before.  The group
setter leaves the property metadata map and the changed-property set as they were, and the
group records under other keys too. -/
theorem setters_change_one_attribute (tracing : Bool) (ctx : MaterialFunctor.EditorContext V)
    (id : Name) :
    (∀ v, PropertySetterFrame ctx (ctx.SetMaterialPropertyVisibility tracing id v).state id
      (fun r r1 => r1.m_description = r.m_description ∧
        r1.m_propertyRange = r.m_propertyRange)) ∧
    (∀ d, PropertySetterFrame ctx (ctx.SetMaterialPropertyDescription tracing id d).state id
      (fun r r1 => r1.m_visibility = r.m_visibility ∧
        r1.m_propertyRange = r.m_propertyRange)) ∧
    (∀ x, PropertySetterFrame ctx (ctx.SetMaterialPropertyMinValue tracing id x).state id
      (fun r r1 => r1.m_visibility = r.m_visibility ∧ r1.m_description = r.m_description ∧
        r1.m_propertyRange.m_max = r.m_propertyRange.m_max ∧
        r1.m_propertyRange.m_softMin = r.m_propertyRange.m_softMin ∧
        r1.m_propertyRange.m_softMax = r.m_propertyRange.m_softMax)) ∧
    (∀ x, PropertySetterFrame ctx (ctx.SetMaterialPropertyMaxValue tracing id x).state id
      (fun r r1 => r1.m_visibility = r.m_visibility ∧ r1.m_description = r.m_description ∧
        r1.m_propertyRange.m_min = r.m_propertyRange.m_min ∧
        r1.m_propertyRange.m_softMin = r.m_propertyRange.m_softMin ∧
        r1.m_propertyRange.m_softMax = r.m_propertyRange.m_softMax)) ∧
    (∀ x, PropertySetterFrame ctx (ctx.SetMaterialPropertySoftMinValue tracing id x).state id
      (fun r r1 => r1.m_visibility = r.m_visibility ∧ r1.m_description = r.m_description ∧
        r1.m_propertyRange.m_min = r.m_propertyRange.m_min ∧
        r1.m_propertyRange.m_max = r.m_propertyRange.m_max ∧
        r1.m_propertyRange.m_softMax = r.m_propertyRange.m_softMax)) ∧
    (∀ x, PropertySetterFrame ctx (ctx.SetMaterialPropertySoftMaxValue tracing id x).state id
      (fun r r1 => r1.m_visibility = r.m_visibility ∧ r1.m_description = r.m_description ∧
        r1.m_propertyRange.m_min = r.m_propertyRange.m_min ∧
        r1.m_propertyRange.m_max = r.m_propertyRange.m_max ∧
        r1.m_propertyRange.m_softMin = r.m_propertyRange.m_softMin)) ∧
    (∀ v, GroupSetterFrame ctx (ctx.SetMaterialPropertyGroupVisibility tracing id v).state
      id) := by
  refine ⟨fun v => ?_, fun d => ?_, fun x => ?_, fun x => ?_, fun x => ?_, fun x => ?_,
    fun v => ?_⟩
  · unfold SetMaterialPropertyVisibility QueryMaterialPropertyMetadata
    cases hfind : unordered_map.find ctx.m_propertyMetadata id with
    | none => exact propertySetterFrame_refl ctx id _ (fun _ => ⟨rfl, rfl⟩)
    | some r =>
      by_cases h : r.m_visibility = v
      · simpa [h] using propertySetterFrame_refl ctx id _ (fun _ => ⟨rfl, rfl⟩)
      · simpa [h] using propertySetterFrame_store ctx id _ r _ _ hfind ⟨rfl, rfl⟩
  · unfold SetMaterialPropertyDescription QueryMaterialPropertyMetadata
    cases hfind : unordered_map.find ctx.m_propertyMetadata id with
    | none => exact propertySetterFrame_refl ctx id _ (fun _ => ⟨rfl, rfl⟩)
    | some r =>
      by_cases h : r.m_description = d
      · simpa [h] using propertySetterFrame_refl ctx id _ (fun _ => ⟨rfl, rfl⟩)
      · simpa [h] using propertySetterFrame_store ctx id _ r _ _ hfind ⟨rfl, rfl⟩
  · unfold SetMaterialPropertyMinValue QueryMaterialPropertyMetadata
    cases hfind : unordered_map.find ctx.m_propertyMetadata id with
    | none => exact propertySetterFrame_refl ctx id _ (fun _ => ⟨rfl, rfl, rfl, rfl, rfl⟩)
    | some r =>
      cases h : r.m_propertyRange.m_min != x
      · simpa [h] using
          propertySetterFrame_refl ctx id _ (fun _ => ⟨rfl, rfl, rfl, rfl, rfl⟩)
      · simpa [h] using
          propertySetterFrame_store ctx id _ r _ _ hfind ⟨rfl, rfl, rfl, rfl, rfl⟩
  · unfold SetMaterialPropertyMaxValue QueryMaterialPropertyMetadata
    cases hfind : unordered_map.find ctx.m_propertyMetadata id with
    | none => exact propertySetterFrame_refl ctx id _ (fun _ => ⟨rfl, rfl, rfl, rfl, rfl⟩)
    | some r =>
      cases h : r.m_propertyRange.m_max != x
      · simpa [h] using
          propertySetterFrame_refl ctx id _ (fun _ => ⟨rfl, rfl, rfl, rfl, rfl⟩)
      · simpa [h] using
          propertySetterFrame_store ctx id _ r _ _ hfind ⟨rfl, rfl, rfl, rfl, rfl⟩
  · unfold SetMaterialPropertySoftMinValue QueryMaterialPropertyMetadata
    cases hfind : unordered_map.find ctx.m_propertyMetadata id with
    | none => exact propertySetterFrame_refl ctx id _ (fun _ => ⟨rfl, rfl, rfl, rfl, rfl⟩)
    | some r =>
      cases h : r.m_propertyRange.m_softMin != x
      · simpa [h] using
          propertySetterFrame_refl ctx id _ (fun _ => ⟨rfl, rfl, rfl, rfl, rfl⟩)
      · simpa [h] using
          propertySetterFrame_store ctx id _ r _ _ hfind ⟨rfl, rfl, rfl, rfl, rfl⟩
  · unfold SetMaterialPropertySoftMaxValue QueryMaterialPropertyMetadata
    cases hfind : unordered_map.find ctx.m_propertyMetadata id with
    | none => exact propertySetterFrame_refl ctx id _ (fun _ => ⟨rfl, rfl, rfl, rfl, rfl⟩)
    | some r =>
      cases h : r.m_propertyRange.m_softMax != x
      · simpa [h] using
          propertySetterFrame_refl ctx id _ (fun _ => ⟨rfl, rfl, rfl, rfl, rfl⟩)
      · simpa [h] using
          propertySetterFrame_store ctx id _ r _ _ hfind ⟨rfl, rfl, rfl, rfl, rfl⟩
  · unfold SetMaterialPropertyGroupVisibility QueryMaterialPropertyGroupMetadata
      GroupSetterFrame
    cases hfind : unordered_map.find ctx.m_propertyGroupMetadata id with
    | none => simp
    | some r =>
      by_cases h : r.m_visibility = v
      · simp [h]
      · simp only [bne_iff_ne, ne_eq, h, not_false_eq_true, if_true, and_self, and_true]
        intro k hk
        simp only [unordered_map.find_store, if_neg hk]


/-- A pass after which the record under `id` is another one than before the pass has `id` in
the changed-id set of that map. -/
theorem MaterialFunctor.EditorContext.runCalls_records_change (tracing : Bool)
    (ctx : MaterialFunctor.EditorContext V) (calls : List (SetCall V)) (id : Name) :
    (unordered_map.find (runCalls tracing ctx calls).m_propertyMetadata id ≠
          unordered_map.find ctx.m_propertyMetadata id →
        id ∈ (runCalls tracing ctx calls).m_updatedPropertiesOut) ∧
      (unordered_map.find (runCalls tracing ctx calls).m_propertyGroupMetadata id ≠
          unordered_map.find ctx.m_propertyGroupMetadata id →
        id ∈ (runCalls tracing ctx calls).m_updatedPropertyGroupsOut) := by
  induction calls generalizing ctx with
  | nil => exact ⟨fun h => absurd rfl h, fun h => absurd rfl h⟩
  | cons call rest ih =>
    simp only [runCalls]
    constructor
    · intro hne
      by_cases hstep : unordered_map.find (call.run tracing ctx).state.m_propertyMetadata id =
          unordered_map.find ctx.m_propertyMetadata id
      · exact (ih _).1 (by rw [hstep]; exact hne)
      · exact (runCalls_mem_mono tracing _ rest id).1
          ((SetCall.run_records_change tracing ctx call id).1 hstep)
    · intro hne
      by_cases hstep :
          unordered_map.find (call.run tracing ctx).state.m_propertyGroupMetadata id =
            unordered_map.find ctx.m_propertyGroupMetadata id
      · exact (ih _).2 (by rw [hstep]; exact hne)
      · exact (runCalls_mem_mono tracing _ rest id).2
          ((SetCall.run_records_change tracing ctx call id).2 hstep)

/-- C20. Change tracking is complete: after any pass of setter calls, an identifier whose
property record (group record) is another one than before the pass is in the
changed-property set (changed-group set); and no call takes an identifier out of a
changed-id set. -/
theorem change_tracking_complete (tracing : Bool) (ctx : MaterialFunctor.EditorContext V)
    (calls : List (SetCall V)) (id : Name) :
    (unordered_map.find (runCalls tracing ctx calls).m_propertyMetadata id ≠
          unordered_map.find ctx.m_propertyMetadata id →
        id ∈ (runCalls tracing ctx calls).m_updatedPropertiesOut) ∧
      (unordered_map.find (runCalls tracing ctx calls).m_propertyGroupMetadata id ≠
          unordered_map.find ctx.m_propertyGroupMetadata id →
        id ∈ (runCalls tracing ctx calls).m_updatedPropertyGroupsOut) ∧
      (∀ call : SetCall V,
        (id ∈ ctx.m_updatedPropertiesOut →
          id ∈ (call.run tracing ctx).state.m_updatedPropertiesOut) ∧
        (id ∈ ctx.m_updatedPropertyGroupsOut →
          id ∈ (call.run tracing ctx).state.m_updatedPropertyGroupsOut)) := by
  refine ⟨(runCalls_records_change tracing ctx calls id).1,
    (runCalls_records_change tracing ctx calls id).2, fun call => ?_⟩
  have h := runCalls_mem_mono tracing ctx [call] id
  simpa only [runCalls] using h

/-- Witness for C20: after the sample pass the record of "roughness" is another one than
before, so "roughness" is in the changed-property set. -/
theorem change_tracking_complete_witness :
    "roughness" ∈ (runCalls true sampleEditorContext sampleCalls).m_updatedPropertiesOut :=
  (change_tracking_complete true sampleEditorContext sampleCalls "roughness").1 (by decide)

end EditorFrame

/-! ### Editor context: lookups and index-keyed overloads -/

section EditorLookup

open MaterialFunctor.EditorContext

/-- C12, as the code has it. `GetMaterialPropertyMetadata(name)` and
`GetMaterialPropertyGroupMetadata(name)` return the record stored under the identifier,
without a diagnostic, when the identifier is a key of the map they look in; otherwise they
return no record, with one error when tracing is compiled in and with no diagnostic when it
is not.  Both are `const` member functions: a result and diagnostics are all they yield. -/
theorem get_metadata_by_name {V : Type} (ctx : MaterialFunctor.EditorContext V) (id : Name) :
    (unordered_map.find ctx.m_propertyMetadata id = none →
      ctx.GetMaterialPropertyMetadata true id =
          (none, [Diagnostic.propertyMetadataNotFound id]) ∧
        ctx.GetMaterialPropertyMetadata false id = (none, [])) ∧
    (∀ (tracing : Bool) metadata,
      unordered_map.find ctx.m_propertyMetadata id = some metadata →
        ctx.GetMaterialPropertyMetadata tracing id = (some metadata, [])) ∧
    (unordered_map.find ctx.m_propertyGroupMetadata id = none →
      ctx.GetMaterialPropertyGroupMetadata true id =
          (none, [Diagnostic.propertyGroupMetadataNotFound id]) ∧
        ctx.GetMaterialPropertyGroupMetadata false id = (none, [])) ∧
    (∀ (tracing : Bool) metadata,
      unordered_map.find ctx.m_propertyGroupMetadata id = some metadata →
        ctx.GetMaterialPropertyGroupMetadata tracing id = (some metadata, [])) := by
  refine ⟨fun h => ?_, fun tracing metadata h => ?_, fun h => ?_, fun tracing metadata h => ?_⟩
  · simp [GetMaterialPropertyMetadata, QueryMaterialPropertyMetadata, h, AZ_Error]
  · simp [GetMaterialPropertyMetadata, QueryMaterialPropertyMetadata, h]
  · simp [GetMaterialPropertyGroupMetadata, QueryMaterialPropertyGroupMetadata, h, AZ_Error]
  · simp [GetMaterialPropertyGroupMetadata, QueryMaterialPropertyGroupMetadata, h]

/-- Witness for C12 as the code has it: with tracing, "nonexistentProp" gives no record and
one error. -/
theorem get_metadata_by_name_witness :
    sampleEditorContext.GetMaterialPropertyMetadata true "nonexistentProp" =
      (none, [Diagnostic.propertyMetadataNotFound "nonexistentProp"]) :=
  ((get_metadata_by_name sampleEditorContext "nonexistentProp").1 (by decide)).1

/-- C12 as stated fails in a build without tracing: "nonexistentProp" is no key of the
property metadata map of the sample context and the lookup returns no record, but no error
is logged, `AZ_Error` being compiled out. -/
theorem get_metadata_unknown_silent_without_tracing :
    unordered_map.find sampleEditorContext.m_propertyMetadata "nonexistentProp" = none ∧
      sampleEditorContext.GetMaterialPropertyMetadata false "nonexistentProp" = (none, []) := by
  decide

/-- C16. For a property index that the layout resolves to a descriptor, each index-keyed
operation of the editor context has a defined result, and it is the result (return value,
context afterwards, diagnostics) of the name-keyed operation of the same name called with
the descriptor's name. -/
theorem index_keyed_delegates_to_name_keyed {V : Type} [BEq V] (tracing : Bool)
    (ctx : MaterialFunctor.EditorContext V) (index : MaterialPropertyIndex)
    (descriptor : MaterialPropertyDescriptor)
    (h : ctx.m_materialProperties.GetMaterialPropertiesLayout.GetPropertyDescriptor index =
      some descriptor) :
    ctx.GetMaterialPropertyMetadataByIndex tracing index =
        some (ctx.GetMaterialPropertyMetadata tracing descriptor.GetName) ∧
      (∀ v, ctx.SetMaterialPropertyVisibilityByIndex tracing index v =
        some (ctx.SetMaterialPropertyVisibility tracing descriptor.GetName v)) ∧
      (∀ d, ctx.SetMaterialPropertyDescriptionByIndex tracing index d =
        some (ctx.SetMaterialPropertyDescription tracing descriptor.GetName d)) ∧
      (∀ x, ctx.SetMaterialPropertyMinValueByIndex tracing index x =
        some (ctx.SetMaterialPropertyMinValue tracing descriptor.GetName x)) ∧
      (∀ x, ctx.SetMaterialPropertyMaxValueByIndex tracing index x =
        some (ctx.SetMaterialPropertyMaxValue tracing descriptor.GetName x)) ∧
      (∀ x, ctx.SetMaterialPropertySoftMinValueByIndex tracing index x =
        some (ctx.SetMaterialPropertySoftMinValue tracing descriptor.GetName x)) ∧
      (∀ x, ctx.SetMaterialPropertySoftMaxValueByIndex tracing index x =
        some (ctx.SetMaterialPropertySoftMaxValue tracing descriptor.GetName x)) := by
  have hname : ctx.nameOfIndex index = some descriptor.GetName := by
    simp [nameOfIndex, h]
  refine ⟨?_, fun v => ?_, fun d => ?_, fun x => ?_, fun x => ?_, fun x => ?_, fun x => ?_⟩
  · simp only [GetMaterialPropertyMetadataByIndex, hname]
  · simp only [SetMaterialPropertyVisibilityByIndex, hname]
  · simp only [SetMaterialPropertyDescriptionByIndex, hname]
  · simp only [SetMaterialPropertyMinValueByIndex, hname]
  · simp only [SetMaterialPropertyMaxValueByIndex, hname]
  · simp only [SetMaterialPropertySoftMinValueByIndex, hname]
  · simp only [SetMaterialPropertySoftMaxValueByIndex, hname]

/-- Witness for C16: index 0 of the sample layout is "roughness"; hiding the property by
index does what hiding it by name does, and "roughness" ends up in the changed-property
set. -/
theorem index_keyed_delegates_to_name_keyed_witness :
    sampleEditorContext.SetMaterialPropertyVisibilityByIndex true ⟨0⟩
        MaterialPropertyVisibility.Hidden =
      some (sampleEditorContext.SetMaterialPropertyVisibility true "roughness"
        MaterialPropertyVisibility.Hidden) ∧
      (sampleEditorContext.SetMaterialPropertyVisibility true "roughness"
        MaterialPropertyVisibility.Hidden).state.m_updatedPropertiesOut = ["roughness"] :=
  ⟨(index_keyed_delegates_to_name_keyed true sampleEditorContext ⟨0⟩ ⟨"roughness"⟩
      (by decide)).2.1 MaterialPropertyVisibility.Hidden,
    by decide⟩

end EditorLookup


/-! ### Runtime context: result and diagnostics of setting a shader option -/

section ShaderOptionResult

open MaterialFunctor.RuntimeContext

variable {V G R ValueType : Type}

/-- A map with an item that has the option unowned splits at the first such item. -/
theorem MaterialPipelineShaderCollections.exists_first_unowned
    (api : ShaderOptionGroupApi G ValueType) (name : Name)
    (collections : MaterialPipelineShaderCollections G R)
    (h : ∃ pair ∈ collections, ∃ item ∈ pair.2, item.HasUnownedOption api name = true) :
    ∃ before pipeline earlier first later after,
      collections = before ++ (pipeline, earlier ++ first :: later) :: after ∧
        (∀ pair ∈ before, ∀ item ∈ pair.2, item.HasUnownedOption api name = false) ∧
        (∀ item ∈ earlier, item.HasUnownedOption api name = false) ∧
        first.HasUnownedOption api name = true := by
  have hpair : ∃ pair ∈ collections,
      pair.2.any (fun item => item.HasUnownedOption api name) = true := by
    obtain ⟨pair, hp, item, hi, hu⟩ := h
    exact ⟨pair, hp, List.any_eq_true.mpr ⟨item, hi, hu⟩⟩
  obtain ⟨before, pair, after, hmap, hbefore, hany⟩ :=
    List.exists_first_of_exists
      (fun pair : Name × ShaderCollection G R =>
        pair.2.any (fun item => item.HasUnownedOption api name))
      collections hpair
  obtain ⟨earlier, first, later, hitems, hearlier, hfirst⟩ :=
    List.exists_first_of_exists (fun item : ShaderCollection.Item G R =>
      item.HasUnownedOption api name) pair.2 (List.any_eq_true.mp hany)
  refine ⟨before, pair.1, earlier, first, later, after, ?_, ?_, hearlier, hfirst⟩
  · rw [← hitems]; exact hmap
  · intro q hq item hi
    have hq2 := hbefore q hq
    cases hu : item.HasUnownedOption api name
    · rfl
    · have hq3 : q.2.any (fun item => item.HasUnownedOption api name) = true :=
        List.any_eq_true.mpr ⟨item, hi, hu⟩
      simp only at hq2
      rw [hq2] at hq3
      cases hq3

/-- The whole outcome of the call on a map split at its first item that has the option
unowned. -/
theorem MaterialFunctor.RuntimeContext.setShaderOptionValue_at_first_unowned
    (api : ShaderOptionGroupApi G ValueType) (tracing : Bool)
    (ctx : MaterialFunctor.RuntimeContext V G R) (name : Name) (value : ValueType)
    (before after : MaterialPipelineShaderCollections G R) (pipeline : Name)
    (earlier later : ShaderCollection G R) (first : ShaderCollection.Item G R)
    (hmap : ctx.m_allShaderCollections =
      before ++ (pipeline, earlier ++ first :: later) :: after)
    (hbefore : ∀ pair ∈ before, ∀ item ∈ pair.2, item.HasUnownedOption api name = false)
    (hearlier : ∀ item ∈ earlier, item.HasUnownedOption api name = false)
    (hfirst : first.HasUnownedOption api name = true) :
    SetShaderOptionValue api tracing ctx name value =
      ⟨false,
        { ctx with
          m_allShaderCollections :=
            MaterialPipelineShaderCollections.applyToOwned api name value before ++
              (pipeline, earlier.map (fun item => item.applyToOwned api name value) ++
                first :: later) :: after },
        AZ_Error tracing (Diagnostic.shaderOptionNotOwned name) ++
          AZ_Assert tracing
            (!((before.any (fun pair => pair.2.any (fun item =>
                item.OwnsOption api name && item.SetValueSucceeds api name value))) ||
              earlier.any (fun item =>
                item.OwnsOption api name && item.SetValueSucceeds api name value)))
            Diagnostic.ownershipAssertFailed⟩ := by
  have hloop := pipelineLoop_append api tracing name value before
    ((pipeline, earlier ++ first :: later) :: after) false hbefore
  rw [SetShaderOptionValueHelper.pipelineLoop] at hloop
  simp only [itemLoop_append api tracing name value earlier (first :: later) _ hearlier,
    itemLoop_unowned api tracing name value first later _ hfirst, Bool.false_or] at hloop
  unfold SetShaderOptionValue SetShaderOptionValueHelper
  rw [hmap, hloop]

/-- The whole outcome of the call on a map no item of which has the option unowned. -/
theorem MaterialFunctor.RuntimeContext.setShaderOptionValue_of_no_unowned
    (api : ShaderOptionGroupApi G ValueType) (tracing : Bool)
    (ctx : MaterialFunctor.RuntimeContext V G R) (name : Name) (value : ValueType)
    (h : ∀ pair ∈ ctx.m_allShaderCollections, ∀ item ∈ pair.2,
      item.HasUnownedOption api name = false) :
    SetShaderOptionValue api tracing ctx name value =
      ⟨ctx.m_allShaderCollections.any (fun pair => pair.2.any (fun item =>
          item.OwnsOption api name && item.SetValueSucceeds api name value)),
        { ctx with
          m_allShaderCollections :=
            MaterialPipelineShaderCollections.applyToOwned api name value
              ctx.m_allShaderCollections },
        if !(ctx.m_allShaderCollections.any (fun pair => pair.2.any (fun item =>
            item.OwnsOption api name && item.SetValueSucceeds api name value)))
        then AZ_Error tracing (Diagnostic.shaderOptionNotFound name) else []⟩ := by
  have hloop := pipelineLoop_append api tracing name value ctx.m_allShaderCollections []
    false h
  simp only [List.append_nil, SetShaderOptionValueHelper.pipelineLoop, Bool.false_or]
    at hloop
  unfold SetShaderOptionValue SetShaderOptionValueHelper
  rw [hloop]


theorem ShaderCollection.Item.hasUnownedOption_eq_false_iff
    (api : ShaderOptionGroupApi G ValueType) (name : Name) (item : ShaderCollection.Item G R) :
    item.HasUnownedOption api name = false ↔
      ((api.FindShaderOptionIndex item.GetShaderOptions name).IsValid = true →
        item.MaterialOwnsShaderOption
          (api.FindShaderOptionIndex item.GetShaderOptions name) = true) := by
  unfold ShaderCollection.Item.HasUnownedOption
  cases (api.FindShaderOptionIndex item.GetShaderOptions name).IsValid <;>
    cases item.MaterialOwnsShaderOption
      (api.FindShaderOptionIndex item.GetShaderOptions name) <;> simp

/-- C17. `SetShaderOptionValue` returns true exactly when (1) every shader item, in every
pipeline, whose option layout contains the name is owned by the material for that option and
(2) `SetValue` returned true for at least one of those items.  So it returns false when
`SetValue` fails for every owning item, also when owning items exist. -/
theorem set_option_true_iff_all_owned_and_one_set (api : ShaderOptionGroupApi G ValueType)
    (tracing : Bool) (ctx : MaterialFunctor.RuntimeContext V G R) (name : Name)
    (value : ValueType) :
    ((SetShaderOptionValue api tracing ctx name value).result = true ↔
        (∀ pair ∈ ctx.m_allShaderCollections, ∀ item ∈ pair.2,
          (api.FindShaderOptionIndex item.GetShaderOptions name).IsValid = true →
            item.MaterialOwnsShaderOption
              (api.FindShaderOptionIndex item.GetShaderOptions name) = true) ∧
        (∃ pair ∈ ctx.m_allShaderCollections, ∃ item ∈ pair.2,
          (api.FindShaderOptionIndex item.GetShaderOptions name).IsValid = true ∧
            item.SetValueSucceeds api name value = true)) ∧
      ((∀ pair ∈ ctx.m_allShaderCollections, ∀ item ∈ pair.2,
          item.OwnsOption api name = true → item.SetValueSucceeds api name value = false) →
        (SetShaderOptionValue api tracing ctx name value).result = false) := by
  by_cases hclean : ∀ pair ∈ ctx.m_allShaderCollections, ∀ item ∈ pair.2,
      item.HasUnownedOption api name = false
  · have hall : ∀ pair ∈ ctx.m_allShaderCollections, ∀ item ∈ pair.2,
        (api.FindShaderOptionIndex item.GetShaderOptions name).IsValid = true →
          item.MaterialOwnsShaderOption
            (api.FindShaderOptionIndex item.GetShaderOptions name) = true :=
      fun pair hp item hi =>
        (ShaderCollection.Item.hasUnownedOption_eq_false_iff api name item).mp
          (hclean pair hp item hi)
    rw [setShaderOptionValue_of_no_unowned api tracing ctx name value hclean]
    simp only [List.any_eq_true, Bool.and_eq_true]
    refine ⟨⟨?_, ?_⟩, ?_⟩
    · rintro ⟨pair, hp, item, hi, hown, hset⟩
      refine ⟨hall, pair, hp, item, hi, ?_, hset⟩
      unfold ShaderCollection.Item.OwnsOption at hown
      exact (Bool.and_eq_true _ _ ▸ hown).1
    · rintro ⟨_, pair, hp, item, hi, hvalid, hset⟩
      refine ⟨pair, hp, item, hi, ?_, hset⟩
      unfold ShaderCollection.Item.OwnsOption
      rw [hvalid, hall pair hp item hi hvalid]
      rfl
    · intro hfail
      cases hany : ctx.m_allShaderCollections.any (fun pair => pair.2.any (fun item =>
          item.OwnsOption api name && item.SetValueSucceeds api name value))
      · rfl
      · simp only [List.any_eq_true, Bool.and_eq_true] at hany
        obtain ⟨pair, hp, item, hi, hown, hset⟩ := hany
        rw [hfail pair hp item hi hown] at hset
        cases hset
  · have hex : ∃ pair ∈ ctx.m_allShaderCollections, ∃ item ∈ pair.2,
        item.HasUnownedOption api name = true := by
      by_contra hno
      apply hclean
      intro pair hp item hi
      cases hu : item.HasUnownedOption api name
      · rfl
      · exact absurd ⟨pair, hp, item, hi, hu⟩ hno
    obtain ⟨before, pipeline, earlier, first, later, after, hmap, hbefore, hearlier, hfirst⟩ :=
      MaterialPipelineShaderCollections.exists_first_unowned api name
        ctx.m_allShaderCollections hex
    rw [setShaderOptionValue_at_first_unowned api tracing ctx name value before after
      pipeline earlier later first hmap hbefore hearlier hfirst]
    refine ⟨⟨fun h => Bool.noConfusion h, ?_⟩, fun _ => rfl⟩
    rintro ⟨hall, _⟩
    exfalso
    apply hclean
    intro pair hp item hi
    exact (ShaderCollection.Item.hasUnownedOption_eq_false_iff api name item).mpr
      (hall pair hp item hi)

/-- C18. When every shader item, in every pipeline, whose layout contains the name gives the
same `MaterialOwnsShaderOption` answer, the assertion `!didSetOne` of
`SetShaderOptionValueHelper` never fails, and a call that reaches the not-owned branch has
set no value: the context is as before. -/
theorem ownership_assert_never_fails_when_consistent (api : ShaderOptionGroupApi G ValueType)
    (tracing : Bool) (ctx : MaterialFunctor.RuntimeContext V G R) (name : Name)
    (value : ValueType)
    (hconsistent : ∀ pair1 ∈ ctx.m_allShaderCollections, ∀ item1 ∈ pair1.2,
      ∀ pair2 ∈ ctx.m_allShaderCollections, ∀ item2 ∈ pair2.2,
        (api.FindShaderOptionIndex item1.GetShaderOptions name).IsValid = true →
        (api.FindShaderOptionIndex item2.GetShaderOptions name).IsValid = true →
          item1.MaterialOwnsShaderOption
              (api.FindShaderOptionIndex item1.GetShaderOptions name) =
            item2.MaterialOwnsShaderOption
              (api.FindShaderOptionIndex item2.GetShaderOptions name)) :
    Diagnostic.ownershipAssertFailed ∉ (SetShaderOptionValue api tracing ctx name value).log ∧
      ((∃ pair ∈ ctx.m_allShaderCollections, ∃ item ∈ pair.2,
          item.HasUnownedOption api name = true) →
        (SetShaderOptionValue api tracing ctx name value).state = ctx) := by
  by_cases hex : ∃ pair ∈ ctx.m_allShaderCollections, ∃ item ∈ pair.2,
      item.HasUnownedOption api name = true
  · have hnone : ∀ pair ∈ ctx.m_allShaderCollections, ∀ item ∈ pair.2,
        item.OwnsOption api name = false := by
      obtain ⟨pair0, hp0, item0, hi0, hu0⟩ := hex
      unfold ShaderCollection.Item.HasUnownedOption at hu0
      simp only [Bool.and_eq_true, Bool.not_eq_true'] at hu0
      intro pair hp item hi
      unfold ShaderCollection.Item.OwnsOption
      cases hvalid : (api.FindShaderOptionIndex item.GetShaderOptions name).IsValid
      · rfl
      · rw [hconsistent pair hp item hi pair0 hp0 item0 hi0 hvalid hu0.1, hu0.2]
        rfl
    obtain ⟨before, pipeline, earlier, first, later, after, hmap, hbefore, hearlier, hfirst⟩ :=
      MaterialPipelineShaderCollections.exists_first_unowned api name
        ctx.m_allShaderCollections hex
    have hb : before.any (fun pair => pair.2.any (fun item =>
        item.OwnsOption api name && item.SetValueSucceeds api name value)) = false := by
      rw [List.any_eq_false]
      intro pair hp
      simp only [Bool.not_eq_true, List.any_eq_false, Bool.and_eq_true, not_and]
      intro item hi hown
      rw [hnone pair (by rw [hmap]; exact List.mem_append_left _ hp) item hi] at hown
      cases hown
    have he : earlier.any (fun item =>
        item.OwnsOption api name && item.SetValueSucceeds api name value) = false := by
      rw [List.any_eq_false]
      intro item hi
      simp only [Bool.and_eq_true, not_and]
      intro hown
      rw [hnone (pipeline, earlier ++ first :: later)
        (by rw [hmap]; exact List.mem_append_right _ (List.mem_cons_self _ _)) item
        (List.mem_append_left _ hi)] at hown
      cases hown
    constructor
    · rw [setShaderOptionValue_at_first_unowned api tracing ctx name value before after
        pipeline earlier later first hmap hbefore hearlier hfirst, hb, he]
      cases tracing <;> simp [AZ_Error, AZ_Assert]
    · intro _
      have hloop := pipelineLoop_no_owner api tracing name value ctx.m_allShaderCollections
        false hnone
      unfold SetShaderOptionValue SetShaderOptionValueHelper
      rcases hloop with ⟨hsame, hexit | ⟨log, hexit⟩⟩
      · rw [show SetShaderOptionValueHelper.pipelineLoop api tracing name value
            ctx.m_allShaderCollections false =
              (ctx.m_allShaderCollections, LoopExit.completed false)
          from Prod.ext hsame hexit]
      · rw [show SetShaderOptionValueHelper.pipelineLoop api tracing name value
            ctx.m_allShaderCollections false =
              (ctx.m_allShaderCollections, LoopExit.returned false log)
          from Prod.ext hsame hexit]
  · refine ⟨?_, fun h => absurd h hex⟩
    have hclean : ∀ pair ∈ ctx.m_allShaderCollections, ∀ item ∈ pair.2,
        item.HasUnownedOption api name = false := by
      intro pair hp item hi
      cases hu : item.HasUnownedOption api name
      · rfl
      · exact absurd ⟨pair, hp, item, hi, hu⟩ hex
    rw [setShaderOptionValue_of_no_unowned api tracing ctx name value hclean]
    cases ctx.m_allShaderCollections.any (fun pair => pair.2.any (fun item =>
        item.OwnsOption api name && item.SetValueSucceeds api name value)) <;>
      cases tracing <;> simp [AZ_Error]


/-- Witness for C17: in the sample context the material owns "o_useTexture" wherever a
shader has it; the call returns true for the value 1 and false for the value 5, which
`SetValue` refuses on every owning shader. -/
theorem set_option_true_iff_all_owned_and_one_set_witness :
    (SetShaderOptionValue sampleApi true sampleRuntimeContext "o_useTexture" 1).result = true ∧
      (SetShaderOptionValue sampleApi true sampleRuntimeContext "o_useTexture" 5).result
        = false :=
  ⟨(set_option_true_iff_all_owned_and_one_set sampleApi true sampleRuntimeContext
      "o_useTexture" 1).1.mpr (by decide),
    (set_option_true_iff_all_owned_and_one_set sampleApi true sampleRuntimeContext
      "o_useTexture" 5).2 (by decide)⟩

/-- Witness for C18: in `unownedEverywhereContext` the two shaders that have "o_useTexture"
both have it unowned, which is consistent; the call reaches the not-owned branch at shader 1
and reports the error, the assertion does not fail, and the context is as before. -/
theorem ownership_assert_never_fails_when_consistent_witness :
    (SetShaderOptionValue sampleApi true unownedEverywhereContext "o_useTexture" 1).log =
        [Diagnostic.shaderOptionNotOwned "o_useTexture"] ∧
      Diagnostic.ownershipAssertFailed ∉
        (SetShaderOptionValue sampleApi true unownedEverywhereContext "o_useTexture" 1).log ∧
      (SetShaderOptionValue sampleApi true unownedEverywhereContext "o_useTexture" 1).state =
        unownedEverywhereContext :=
  ⟨by decide,
    (ownership_assert_never_fails_when_consistent sampleApi true unownedEverywhereContext
      "o_useTexture" 1 (by decide)).1,
    (ownership_assert_never_fails_when_consistent sampleApi true unownedEverywhereContext
      "o_useTexture" 1 (by decide)).2 (by decide)⟩

/-- Every call of a name-keyed setter either returns true and reports nothing, or returns
false and reports one error through `AZ_Error`. -/
theorem MaterialFunctor.EditorContext.SetCall.run_result_log {V : Type} [BEq V]
    (tracing : Bool) (ctx : MaterialFunctor.EditorContext V)
    (call : MaterialFunctor.EditorContext.SetCall V) :
    ((call.run tracing ctx).result = true ∧ (call.run tracing ctx).log = []) ∨
      ((call.run tracing ctx).result = false ∧
        ∃ d, d.isError = true ∧ (call.run tracing ctx).log = AZ_Error tracing d) := by
  cases call with
  | groupVisibility id v =>
    simp only [MaterialFunctor.EditorContext.SetCall.run,
      MaterialFunctor.EditorContext.SetMaterialPropertyGroupVisibility,
      MaterialFunctor.EditorContext.QueryMaterialPropertyGroupMetadata]
    cases unordered_map.find ctx.m_propertyGroupMetadata id with
    | none => exact Or.inr ⟨rfl, Diagnostic.propertyGroupMetadataNotFound id, rfl, rfl⟩
    | some metadata => by_cases h : metadata.m_visibility = v <;> simp [h]
  | visibility id v =>
    simp only [MaterialFunctor.EditorContext.SetCall.run,
      MaterialFunctor.EditorContext.SetMaterialPropertyVisibility,
      MaterialFunctor.EditorContext.QueryMaterialPropertyMetadata]
    cases unordered_map.find ctx.m_propertyMetadata id with
    | none => exact Or.inr ⟨rfl, Diagnostic.propertyMetadataNotFound id, rfl, rfl⟩
    | some metadata => by_cases h : metadata.m_visibility = v <;> simp [h]
  | description id d =>
    simp only [MaterialFunctor.EditorContext.SetCall.run,
      MaterialFunctor.EditorContext.SetMaterialPropertyDescription,
      MaterialFunctor.EditorContext.QueryMaterialPropertyMetadata]
    cases unordered_map.find ctx.m_propertyMetadata id with
    | none => exact Or.inr ⟨rfl, Diagnostic.propertyMetadataNotFound id, rfl, rfl⟩
    | some metadata => by_cases h : metadata.m_description = d <;> simp [h]
  | minValue id x =>
    simp only [MaterialFunctor.EditorContext.SetCall.run,
      MaterialFunctor.EditorContext.SetMaterialPropertyMinValue,
      MaterialFunctor.EditorContext.QueryMaterialPropertyMetadata]
    cases unordered_map.find ctx.m_propertyMetadata id with
    | none => exact Or.inr ⟨rfl, Diagnostic.propertyMetadataNotFound id, rfl, rfl⟩
    | some metadata => cases h : metadata.m_propertyRange.m_min != x <;> simp [h]
  | maxValue id x =>
    simp only [MaterialFunctor.EditorContext.SetCall.run,
      MaterialFunctor.EditorContext.SetMaterialPropertyMaxValue,
      MaterialFunctor.EditorContext.QueryMaterialPropertyMetadata]
    cases unordered_map.find ctx.m_propertyMetadata id with
    | none => exact Or.inr ⟨rfl, Diagnostic.propertyMetadataNotFound id, rfl, rfl⟩
    | some metadata => cases h : metadata.m_propertyRange.m_max != x <;> simp [h]
  | softMinValue id x =>
    simp only [MaterialFunctor.EditorContext.SetCall.run,
      MaterialFunctor.EditorContext.SetMaterialPropertySoftMinValue,
      MaterialFunctor.EditorContext.QueryMaterialPropertyMetadata]
    cases unordered_map.find ctx.m_propertyMetadata id with
    | none => exact Or.inr ⟨rfl, Diagnostic.propertyMetadataNotFound id, rfl, rfl⟩
    | some metadata => cases h : metadata.m_propertyRange.m_softMin != x <;> simp [h]
  | softMaxValue id x =>
    simp only [MaterialFunctor.EditorContext.SetCall.run,
      MaterialFunctor.EditorContext.SetMaterialPropertySoftMaxValue,
      MaterialFunctor.EditorContext.QueryMaterialPropertyMetadata]
    cases unordered_map.find ctx.m_propertyMetadata id with
    | none => exact Or.inr ⟨rfl, Diagnostic.propertyMetadataNotFound id, rfl, rfl⟩
    | some metadata => cases h : metadata.m_propertyRange.m_softMax != x <;> simp [h]

/-- Every call of `SetShaderOptionValue` either returns true and reports nothing, or returns
false and reports one error through `AZ_Error`, followed by what `AZ_Assert` reports. -/
theorem MaterialFunctor.RuntimeContext.setShaderOptionValue_result_log
    (api : ShaderOptionGroupApi G ValueType) (tracing : Bool)
    (ctx : MaterialFunctor.RuntimeContext V G R) (name : Name) (value : ValueType) :
    ((SetShaderOptionValue api tracing ctx name value).result = true ∧
        (SetShaderOptionValue api tracing ctx name value).log = []) ∨
      ((SetShaderOptionValue api tracing ctx name value).result = false ∧
        ∃ d cond, d.isError = true ∧
          (SetShaderOptionValue api tracing ctx name value).log =
            AZ_Error tracing d ++ AZ_Assert tracing cond Diagnostic.ownershipAssertFailed) := by
  by_cases hclean : ∀ pair ∈ ctx.m_allShaderCollections, ∀ item ∈ pair.2,
      item.HasUnownedOption api name = false
  · rw [setShaderOptionValue_of_no_unowned api tracing ctx name value hclean]
    cases ctx.m_allShaderCollections.any (fun pair => pair.2.any (fun item =>
        item.OwnsOption api name && item.SetValueSucceeds api name value))
    · exact Or.inr ⟨rfl, Diagnostic.shaderOptionNotFound name, true, rfl,
        by simp [AZ_Assert]⟩
    · exact Or.inl ⟨rfl, rfl⟩
  · have hex : ∃ pair ∈ ctx.m_allShaderCollections, ∃ item ∈ pair.2,
        item.HasUnownedOption api name = true := by
      by_contra hno
      apply hclean
      intro pair hp item hi
      cases hu : item.HasUnownedOption api name
      · rfl
      · exact absurd ⟨pair, hp, item, hi, hu⟩ hno
    obtain ⟨before, pipeline, earlier, first, later, after, hmap, hbefore, hearlier, hfirst⟩ :=
      MaterialPipelineShaderCollections.exists_first_unowned api name
        ctx.m_allShaderCollections hex
    rw [setShaderOptionValue_at_first_unowned api tracing ctx name value before after
      pipeline earlier later first hmap hbefore hearlier hfirst]
    exact Or.inr ⟨rfl, Diagnostic.shaderOptionNotOwned name, _, rfl, rfl⟩

/-- C11, as the code has it. With tracing compiled in, each of the seven name-keyed setters
of the editor context and `SetShaderOptionValue` of the runtime context returns false
exactly when it logs an error during the call, and a call that returns true logs nothing.
Without tracing no call logs anything, whatever it returns. -/
theorem false_result_iff_error_logged {V : Type} [BEq V]
    (api : ShaderOptionGroupApi G ValueType) :
    (∀ (ectx : MaterialFunctor.EditorContext V)
        (call : MaterialFunctor.EditorContext.SetCall V),
      ((call.run true ectx).result = false ↔
          ∃ d ∈ (call.run true ectx).log, d.isError = true) ∧
        ((call.run true ectx).result = true → (call.run true ectx).log = []) ∧
        (call.run false ectx).log = []) ∧
      (∀ (rctx : MaterialFunctor.RuntimeContext V G R) (name : Name) (value : ValueType),
        ((SetShaderOptionValue api true rctx name value).result = false ↔
            ∃ d ∈ (SetShaderOptionValue api true rctx name value).log, d.isError = true) ∧
          ((SetShaderOptionValue api true rctx name value).result = true →
            (SetShaderOptionValue api true rctx name value).log = []) ∧
          (SetShaderOptionValue api false rctx name value).log = []) := by
  constructor
  · intro ectx call
    refine ⟨?_, ?_, ?_⟩
    · rcases MaterialFunctor.EditorContext.SetCall.run_result_log true ectx call with
        ⟨hres, hlog⟩ | ⟨hres, d, hd, hlog⟩
      · rw [hres, hlog]; simp
      · rw [hres, hlog]
        simp only [true_iff]
        exact ⟨d, by simp [AZ_Error], hd⟩
    · rcases MaterialFunctor.EditorContext.SetCall.run_result_log true ectx call with
        ⟨hres, hlog⟩ | ⟨hres, d, hd, hlog⟩
      · exact fun _ => hlog
      · rw [hres]; exact fun h => Bool.noConfusion h
    · rcases MaterialFunctor.EditorContext.SetCall.run_result_log false ectx call with
        ⟨hres, hlog⟩ | ⟨hres, d, hd, hlog⟩
      · exact hlog
      · rw [hlog]; rfl
  · intro rctx name value
    refine ⟨?_, ?_, ?_⟩
    · rcases setShaderOptionValue_result_log api true rctx name value with
        ⟨hres, hlog⟩ | ⟨hres, d, cond, hd, hlog⟩
      · rw [hres, hlog]; simp
      · rw [hres, hlog]
        simp only [true_iff]
        exact ⟨d, by simp [AZ_Error], hd⟩
    · rcases setShaderOptionValue_result_log api true rctx name value with
        ⟨hres, hlog⟩ | ⟨hres, d, cond, hd, hlog⟩
      · exact fun _ => hlog
      · rw [hres]; exact fun h => Bool.noConfusion h
    · rcases setShaderOptionValue_result_log api false rctx name value with
        ⟨hres, hlog⟩ | ⟨hres, d, cond, hd, hlog⟩
      · exact hlog
      · rw [hlog]; rfl

/-- Witness for C11 as the code has it: with tracing, setting the description of
"nonexistentProp" returns false and logs one error, and setting the owned option
"o_useTexture" returns true and logs nothing. -/
theorem false_result_iff_error_logged_witness :
    (sampleEditorContext.SetMaterialPropertyDescription true "nonexistentProp" "x").log =
        [Diagnostic.propertyMetadataNotFound "nonexistentProp"] ∧
      (SetShaderOptionValue sampleApi true sampleRuntimeContext "o_useTexture" 1).log = [] :=
  ⟨by decide,
    ((@false_result_iff_error_logged SampleOptionGroup Unit Nat Int _ sampleApi).2
      sampleRuntimeContext "o_useTexture" 1).2.1 (by decide)⟩

/-- C11 as stated fails in a build without tracing: setting the description of
"nonexistentProp" returns false, and so does setting the shader option "o_missing", which no
shader has, yet neither call logs an error, `AZ_Error` being compiled out. -/
theorem false_result_silent_without_tracing :
    (sampleEditorContext.SetMaterialPropertyDescription false "nonexistentProp" "x").result
        = false ∧
      (sampleEditorContext.SetMaterialPropertyDescription false "nonexistentProp" "x").log
        = [] ∧
      (SetShaderOptionValue sampleApi false sampleRuntimeContext "o_missing" 1).result
        = false ∧
      (SetShaderOptionValue sampleApi false sampleRuntimeContext "o_missing" 1).log = [] := by
  decide

end ShaderOptionResult


/-! ### Runtime context: the common shader collection -/

section CommonCollection

open MaterialFunctor.RuntimeContext

variable {V G R ValueType : Type}

/-- C13. For a context constructed from a shader collection map, `GetShaderCount()` is the
number of shader items stored under the common pipeline name, and 0 when the map has no
entry under that name; it depends on no other entry of the map. -/
theorem getShaderCount_counts_common_pipeline (common : Name)
    (materialProperties : MaterialPropertyCollection V)
    (shaderCollections : MaterialPipelineShaderCollections G R)
    (dependencies : MaterialPropertyFlags) :
    (∀ collection, unordered_map.find shaderCollections common = some collection →
        (construct common materialProperties shaderCollections dependencies).GetShaderCount =
          some collection.length) ∧
      (unordered_map.find shaderCollections common = none →
        (construct common materialProperties shaderCollections dependencies).GetShaderCount =
          some 0) ∧
      (∀ other : MaterialPipelineShaderCollections G R,
        unordered_map.find other common = unordered_map.find shaderCollections common →
          (construct common materialProperties other dependencies).GetShaderCount =
            (construct common materialProperties shaderCollections
              dependencies).GetShaderCount) := by
  refine ⟨fun collection h => ?_, fun h => ?_, fun other h => ?_⟩
  · simp [construct, GetShaderCount, commonShaderCollection, h]
  · simp [construct, GetShaderCount, commonShaderCollection, h]
  · cases hfind : unordered_map.find shaderCollections common with
    | none =>
      rw [hfind] at h
      simp [construct, GetShaderCount, commonShaderCollection, h, hfind]
    | some collection =>
      rw [hfind] at h
      simp [construct, GetShaderCount, commonShaderCollection, h, hfind]

/-- Witness for C13: the common pipeline of the sample map has three shaders; the map
without a common pipeline gives 0 although its pipeline "lowEnd" has a shader. -/
theorem getShaderCount_counts_common_pipeline_witness :
    (construct "common" sampleProperties sampleRuntimeContext.m_allShaderCollections
        0).GetShaderCount = some 3 ∧
      (construct "common" sampleProperties noCommonCollections 0).GetShaderCount = some 0 :=
  ⟨(getShaderCount_counts_common_pipeline "common" sampleProperties
      sampleRuntimeContext.m_allShaderCollections 0).1
      [ sampleItem "forward" ["o_useTexture"] [some 0],
        sampleItem "depth" ["o_other"] [some 0],
        sampleItem "shadow" ["o_other", "o_useTexture"] [some 1] ] (by decide),
    by decide⟩


/-- On a context constructed from a map with a common pipeline, a change of the item at a
position inside the common collection is a store of the changed collection under the common
pipeline name. -/
theorem MaterialFunctor.RuntimeContext.changeCommonItem_at_index (common : Name)
    (materialProperties : MaterialPropertyCollection V)
    (shaderCollections : MaterialPipelineShaderCollections G R)
    (dependencies : MaterialPropertyFlags) (collection : ShaderCollection G R) (i : Nat)
    (item : ShaderCollection.Item G R)
    (change : ShaderCollection.Item G R → ShaderCollection.Item G R)
    (hfind : unordered_map.find shaderCollections common = some collection)
    (hitem : collection[i]? = some item) :
    (construct common materialProperties shaderCollections dependencies).changeCommonItem
        (fun c => c.indexPosition i) change =
      some
        { construct common materialProperties shaderCollections dependencies with
          m_allShaderCollections :=
            unordered_map.store shaderCollections common (collection.set i (change item)) } := by
  have hlt : i < collection.length := (List.getElem?_eq_some_iff.mp hitem).1
  simp [changeCommonItem, commonShaderCollection, storeCommonShaderCollection, construct,
    hfind, ShaderCollection.indexPosition, hlt, hitem]

/-- A store, under the common pipeline name, of the common collection with item `i` replaced
changes that item only. -/
theorem MaterialFunctor.RuntimeContext.changesOnlyCommonItem_store (common : Name)
    (ctx : MaterialFunctor.RuntimeContext V G R) (collection : ShaderCollection G R) (i : Nat)
    (newItem : ShaderCollection.Item G R)
    (hfind : unordered_map.find ctx.m_allShaderCollections common = some collection)
    (hlt : i < collection.length) :
    ChangesOnlyCommonItem common ctx
      { ctx with
        m_allShaderCollections :=
          unordered_map.store ctx.m_allShaderCollections common (collection.set i newItem) }
      i newItem := by
  refine ⟨collection, collection.set i newItem, hfind, ?_, ?_, ?_, ?_, ?_⟩
  · simp [unordered_map.find_store, hfind]
  · simp
  · simp [hlt]
  · intro j hj
    exact List.getElem?_set_ne (fun h => hj h.symm)
  · intro k hk
    simp only [unordered_map.find_store, if_neg hk]

/-- C15. On a context whose common pipeline has an item at index `i`, `SetShaderEnabled(i,
b)` and `SetShaderDrawListTagOverride(i, n)` have a defined result, in which item `i` of the
common pipeline is the item before with its enablement set to `b`, respectively its draw
list tag override set to `n`, and nothing else of it changed; all other items of the common
pipeline and the collections of all other pipelines are as before. -/
theorem set_by_index_changes_addressed_item_only (common : Name)
    (materialProperties : MaterialPropertyCollection V)
    (shaderCollections : MaterialPipelineShaderCollections G R)
    (dependencies : MaterialPropertyFlags) (collection : ShaderCollection G R) (i : Nat)
    (item : ShaderCollection.Item G R)
    (hfind : unordered_map.find shaderCollections common = some collection)
    (hitem : collection[i]? = some item) :
    (∀ enabled, ∃ after,
        (construct common materialProperties shaderCollections dependencies).SetShaderEnabled
            i enabled = some after ∧
          ChangesOnlyCommonItem common
            (construct common materialProperties shaderCollections dependencies) after i
            { item with m_enabled := enabled }) ∧
      (∀ drawListTagName, ∃ after,
        (construct common materialProperties shaderCollections
            dependencies).SetShaderDrawListTagOverride i drawListTagName = some after ∧
          ChangesOnlyCommonItem common
            (construct common materialProperties shaderCollections dependencies) after i
            { item with m_drawListTagOverride := drawListTagName }) := by
  have hlt : i < collection.length := (List.getElem?_eq_some_iff.mp hitem).1
  constructor
  · intro enabled
    refine ⟨_, changeCommonItem_at_index common materialProperties shaderCollections
      dependencies collection i item (fun item => item.SetEnabled enabled) hfind hitem, ?_⟩
    exact changesOnlyCommonItem_store common _ collection i _ hfind hlt
  · intro drawListTagName
    refine ⟨_, changeCommonItem_at_index common materialProperties shaderCollections
      dependencies collection i item
      (fun item => item.SetDrawListTagOverride drawListTagName) hfind hitem, ?_⟩
    exact changesOnlyCommonItem_store common _ collection i _ hfind hlt


/-- Witness for C15: disabling shader 1 of the sample common pipeline changes the enablement
of that shader and nothing else of the map. -/
theorem set_by_index_changes_addressed_item_only_witness :
    ∃ after,
      (construct "common" sampleProperties sampleRuntimeContext.m_allShaderCollections
          0).SetShaderEnabled 1 false = some after ∧
        ChangesOnlyCommonItem "common"
          (construct "common" sampleProperties sampleRuntimeContext.m_allShaderCollections 0)
          after 1 { sampleItem "depth" ["o_other"] [some 0] with m_enabled := false } :=
  (set_by_index_changes_addressed_item_only "common" sampleProperties
    sampleRuntimeContext.m_allShaderCollections 0
    [ sampleItem "forward" ["o_useTexture"] [some 0],
      sampleItem "depth" ["o_other"] [some 0],
      sampleItem "shadow" ["o_other", "o_useTexture"] [some 1] ]
    1 (sampleItem "depth" ["o_other"] [some 0]) (by decide) (by decide)).1 false

end CommonCollection


/-! ### Editor context: keys of the metadata maps -/

section EditorKeys

open MaterialFunctor.EditorContext

theorem unordered_map.mem_keys_of_find {α : Type} (m : unordered_map α) (key : Name) (v : α)
    (h : unordered_map.find m key = some v) : key ∈ unordered_map.keys m := by
  induction m with
  | nil => simp [unordered_map.find] at h
  | cons e rest ih =>
    obtain ⟨k0, v0⟩ := e
    by_cases h0 : k0 = key
    · simp [unordered_map.keys, h0]
    · simp only [unordered_map.find, h0, if_false] at h
      have hrest := ih h
      simp only [unordered_map.keys, List.map_cons, List.mem_cons] at hrest ⊢
      exact Or.inr hrest

variable {V : Type} [BEq V]

/-- What one call does to the property metadata map and the changed-property set, with the
key it writes under: nothing, or one record is overwritten under an identifier that the map
has and that identifier is inserted. -/
theorem MaterialFunctor.EditorContext.SetCall.run_property_side_found (tracing : Bool)
    (ctx : MaterialFunctor.EditorContext V) (call : SetCall V) :
    ((call.run tracing ctx).state.m_propertyMetadata = ctx.m_propertyMetadata ∧
        (call.run tracing ctx).state.m_updatedPropertiesOut = ctx.m_updatedPropertiesOut) ∨
      ∃ id r r0,
        unordered_map.find ctx.m_propertyMetadata id = some r0 ∧
          (call.run tracing ctx).state.m_propertyMetadata =
            unordered_map.store ctx.m_propertyMetadata id r ∧
          (call.run tracing ctx).state.m_updatedPropertiesOut =
            unordered_set.insert ctx.m_updatedPropertiesOut id := by
  cases call with
  | groupVisibility id v =>
    left
    simp only [SetCall.run, SetMaterialPropertyGroupVisibility,
      QueryMaterialPropertyGroupMetadata]
    cases unordered_map.find ctx.m_propertyGroupMetadata id with
    | none => simp
    | some metadata => by_cases h : metadata.m_visibility = v <;> simp [h]
  | visibility id v =>
    simp only [SetCall.run, SetMaterialPropertyVisibility, QueryMaterialPropertyMetadata]
    cases hfind : unordered_map.find ctx.m_propertyMetadata id with
    | none => simp
    | some metadata =>
      by_cases h : metadata.m_visibility = v
      · simp [h]
      · right; exact ⟨id, _, metadata, hfind, by simp [h]; rfl⟩
  | description id d =>
    simp only [SetCall.run, SetMaterialPropertyDescription, QueryMaterialPropertyMetadata]
    cases hfind : unordered_map.find ctx.m_propertyMetadata id with
    | none => simp
    | some metadata =>
      by_cases h : metadata.m_description = d
      · simp [h]
      · right; exact ⟨id, _, metadata, hfind, by simp [h]; rfl⟩
  | minValue id x =>
    simp only [SetCall.run, SetMaterialPropertyMinValue, QueryMaterialPropertyMetadata]
    cases hfind : unordered_map.find ctx.m_propertyMetadata id with
    | none => simp
    | some metadata =>
      cases h : metadata.m_propertyRange.m_min != x
      · simp [h]
      · right; exact ⟨id, _, metadata, hfind, by simp [h]; rfl⟩
  | maxValue id x =>
    simp only [SetCall.run, SetMaterialPropertyMaxValue, QueryMaterialPropertyMetadata]
    cases hfind : unordered_map.find ctx.m_propertyMetadata id with
    | none => simp
    | some metadata =>
      cases h : metadata.m_propertyRange.m_max != x
      · simp [h]
      · right; exact ⟨id, _, metadata, hfind, by simp [h]; rfl⟩
  | softMinValue id x =>
    simp only [SetCall.run, SetMaterialPropertySoftMinValue, QueryMaterialPropertyMetadata]
    cases hfind : unordered_map.find ctx.m_propertyMetadata id with
    | none => simp
    | some metadata =>
      cases h : metadata.m_propertyRange.m_softMin != x
      · simp [h]
      · right; exact ⟨id, _, metadata, hfind, by simp [h]; rfl⟩
  | softMaxValue id x =>
    simp only [SetCall.run, SetMaterialPropertySoftMaxValue, QueryMaterialPropertyMetadata]
    cases hfind : unordered_map.find ctx.m_propertyMetadata id with
    | none => simp
    | some metadata =>
      cases h : metadata.m_propertyRange.m_softMax != x
      · simp [h]
      · right; exact ⟨id, _, metadata, hfind, by simp [h]; rfl⟩

/-- What one call does to the property group metadata map and the changed-group set, with
the key it writes under. -/
theorem MaterialFunctor.EditorContext.SetCall.run_group_side_found (tracing : Bool)
    (ctx : MaterialFunctor.EditorContext V) (call : SetCall V) :
    ((call.run tracing ctx).state.m_propertyGroupMetadata = ctx.m_propertyGroupMetadata ∧
        (call.run tracing ctx).state.m_updatedPropertyGroupsOut =
          ctx.m_updatedPropertyGroupsOut) ∨
      ∃ id r r0,
        unordered_map.find ctx.m_propertyGroupMetadata id = some r0 ∧
          (call.run tracing ctx).state.m_propertyGroupMetadata =
            unordered_map.store ctx.m_propertyGroupMetadata id r ∧
          (call.run tracing ctx).state.m_updatedPropertyGroupsOut =
            unordered_set.insert ctx.m_updatedPropertyGroupsOut id := by
  cases call with
  | groupVisibility id v =>
    simp only [SetCall.run, SetMaterialPropertyGroupVisibility,
      QueryMaterialPropertyGroupMetadata]
    cases hfind : unordered_map.find ctx.m_propertyGroupMetadata id with
    | none => simp
    | some metadata =>
      by_cases h : metadata.m_visibility = v
      · simp [h]
      · right; exact ⟨id, _, metadata, hfind, by simp [h]; rfl⟩
  | visibility id v =>
    left
    simp only [SetCall.run, SetMaterialPropertyVisibility, QueryMaterialPropertyMetadata]
    cases unordered_map.find ctx.m_propertyMetadata id with
    | none => simp
    | some metadata => by_cases h : metadata.m_visibility = v <;> simp [h]
  | description id d =>
    left
    simp only [SetCall.run, SetMaterialPropertyDescription, QueryMaterialPropertyMetadata]
    cases unordered_map.find ctx.m_propertyMetadata id with
    | none => simp
    | some metadata => by_cases h : metadata.m_description = d <;> simp [h]
  | minValue id x =>
    left
    simp only [SetCall.run, SetMaterialPropertyMinValue, QueryMaterialPropertyMetadata]
    cases unordered_map.find ctx.m_propertyMetadata id with
    | none => simp
    | some metadata => cases h : metadata.m_propertyRange.m_min != x <;> simp [h]
  | maxValue id x =>
    left
    simp only [SetCall.run, SetMaterialPropertyMaxValue, QueryMaterialPropertyMetadata]
    cases unordered_map.find ctx.m_propertyMetadata id with
    | none => simp
    | some metadata => cases h : metadata.m_propertyRange.m_max != x <;> simp [h]
  | softMinValue id x =>
    left
    simp only [SetCall.run, SetMaterialPropertySoftMinValue, QueryMaterialPropertyMetadata]
    cases unordered_map.find ctx.m_propertyMetadata id with
    | none => simp
    | some metadata => cases h : metadata.m_propertyRange.m_softMin != x <;> simp [h]
  | softMaxValue id x =>
    left
    simp only [SetCall.run, SetMaterialPropertySoftMaxValue, QueryMaterialPropertyMetadata]
    cases unordered_map.find ctx.m_propertyMetadata id with
    | none => simp
    | some metadata => cases h : metadata.m_propertyRange.m_softMax != x <;> simp [h]

/-- A name-keyed setter keeps the keys of both metadata maps, and keeps the changed-id sets
within those keys. -/
theorem MaterialFunctor.EditorContext.SetCall.run_keeps_keys (tracing : Bool)
    (ctx : MaterialFunctor.EditorContext V) (call : SetCall V) :
    SameKeys ctx (call.run tracing ctx).state ∧
      (ChangedIdsAreKeys ctx → ChangedIdsAreKeys (call.run tracing ctx).state) := by
  have hp := SetCall.run_property_side_found tracing ctx call
  have hg := SetCall.run_group_side_found tracing ctx call
  have hpk : unordered_map.keys (call.run tracing ctx).state.m_propertyMetadata =
      unordered_map.keys ctx.m_propertyMetadata := by
    rcases hp with ⟨h1, _⟩ | ⟨id, r, r0, _, h1, _⟩
    · rw [h1]
    · rw [h1]; exact unordered_map.keys_store _ _ _
  have hgk : unordered_map.keys (call.run tracing ctx).state.m_propertyGroupMetadata =
      unordered_map.keys ctx.m_propertyGroupMetadata := by
    rcases hg with ⟨h1, _⟩ | ⟨id, r, r0, _, h1, _⟩
    · rw [h1]
    · rw [h1]; exact unordered_map.keys_store _ _ _
  refine ⟨⟨hpk, hgk⟩, fun hknown => ⟨?_, ?_⟩⟩
  · intro k hk
    rw [hpk]
    rcases hp with ⟨_, h2⟩ | ⟨id, r, r0, hfind, _, h2⟩
    · rw [h2] at hk; exact hknown.1 k hk
    · rw [h2, unordered_set.mem_insert] at hk
      rcases hk with hk | hk
      · exact hknown.1 k hk
      · rw [hk]; exact unordered_map.mem_keys_of_find _ _ _ hfind
  · intro k hk
    rw [hgk]
    rcases hg with ⟨_, h2⟩ | ⟨id, r, r0, hfind, _, h2⟩
    · rw [h2] at hk; exact hknown.2 k hk
    · rw [h2, unordered_set.mem_insert] at hk
      rcases hk with hk | hk
      · exact hknown.2 k hk
      · rw [hk]; exact unordered_map.mem_keys_of_find _ _ _ hfind


/-- C22. No operation of the editor context that sets or looks up metadata, keyed by name or
by index, adds or removes a metadata record or records an unknown identifier: in the context
after the operation both metadata maps have the keys they had before, and when every member
of each changed-id set was a key of its map before, the same holds after.  The operation has
a context after it whenever it is keyed by name, or by an index that the layout resolves to
a descriptor. -/
theorem operations_keep_keys_and_known_ids (tracing : Bool)
    (ctx : MaterialFunctor.EditorContext V) (op : Operation V) :
    (∀ after, op.contextAfter tracing ctx = some after →
        SameKeys ctx after ∧ (ChangedIdsAreKeys ctx → ChangedIdsAreKeys after)) ∧
      ((∀ index, op.index? = some index →
          (ctx.m_materialProperties.GetMaterialPropertiesLayout.GetPropertyDescriptor
            index).isSome = true) →
        (op.contextAfter tracing ctx).isSome = true) := by
  have hrefl : SameKeys ctx ctx ∧ (ChangedIdsAreKeys ctx → ChangedIdsAreKeys ctx) :=
    ⟨⟨rfl, rfl⟩, fun h => h⟩
  cases op with
  | set call =>
    refine ⟨fun after h => ?_, fun _ => rfl⟩
    simp only [Operation.contextAfter, Option.some.injEq] at h
    rw [← h]
    exact SetCall.run_keeps_keys tracing ctx call
  | setVisibilityByIndex index v =>
    simp only [Operation.contextAfter, Operation.index?, SetMaterialPropertyVisibilityByIndex,
      nameOfIndex]
    cases hd :
        ctx.m_materialProperties.GetMaterialPropertiesLayout.GetPropertyDescriptor index with
    | none =>
      refine ⟨fun after h => ?_, fun hres => ?_⟩
      · simp at h
      · have h1 := hres index rfl
        rw [hd] at h1
        cases h1
    | some d =>
      refine ⟨fun after h => ?_, fun _ => rfl⟩
      simp only [Option.map_some', Option.some.injEq] at h
      rw [← h]
      exact SetCall.run_keeps_keys tracing ctx (SetCall.visibility d.GetName v)
  | setDescriptionByIndex index x =>
    simp only [Operation.contextAfter, Operation.index?,
      SetMaterialPropertyDescriptionByIndex, nameOfIndex]
    cases hd :
        ctx.m_materialProperties.GetMaterialPropertiesLayout.GetPropertyDescriptor index with
    | none =>
      refine ⟨fun after h => ?_, fun hres => ?_⟩
      · simp at h
      · have h1 := hres index rfl
        rw [hd] at h1
        cases h1
    | some d =>
      refine ⟨fun after h => ?_, fun _ => rfl⟩
      simp only [Option.map_some', Option.some.injEq] at h
      rw [← h]
      exact SetCall.run_keeps_keys tracing ctx (SetCall.description d.GetName x)
  | setMinValueByIndex index x =>
    simp only [Operation.contextAfter, Operation.index?, SetMaterialPropertyMinValueByIndex,
      nameOfIndex]
    cases hd :
        ctx.m_materialProperties.GetMaterialPropertiesLayout.GetPropertyDescriptor index with
    | none =>
      refine ⟨fun after h => ?_, fun hres => ?_⟩
      · simp at h
      · have h1 := hres index rfl
        rw [hd] at h1
        cases h1
    | some d =>
      refine ⟨fun after h => ?_, fun _ => rfl⟩
      simp only [Option.map_some', Option.some.injEq] at h
      rw [← h]
      exact SetCall.run_keeps_keys tracing ctx (SetCall.minValue d.GetName x)
  | setMaxValueByIndex index x =>
    simp only [Operation.contextAfter, Operation.index?, SetMaterialPropertyMaxValueByIndex,
      nameOfIndex]
    cases hd :
        ctx.m_materialProperties.GetMaterialPropertiesLayout.GetPropertyDescriptor index with
    | none =>
      refine ⟨fun after h => ?_, fun hres => ?_⟩
      · simp at h
      · have h1 := hres index rfl
        rw [hd] at h1
        cases h1
    | some d =>
      refine ⟨fun after h => ?_, fun _ => rfl⟩
      simp only [Option.map_some', Option.some.injEq] at h
      rw [← h]
      exact SetCall.run_keeps_keys tracing ctx (SetCall.maxValue d.GetName x)
  | setSoftMinValueByIndex index x =>
    simp only [Operation.contextAfter, Operation.index?,
      SetMaterialPropertySoftMinValueByIndex, nameOfIndex]
    cases hd :
        ctx.m_materialProperties.GetMaterialPropertiesLayout.GetPropertyDescriptor index with
    | none =>
      refine ⟨fun after h => ?_, fun hres => ?_⟩
      · simp at h
      · have h1 := hres index rfl
        rw [hd] at h1
        cases h1
    | some d =>
      refine ⟨fun after h => ?_, fun _ => rfl⟩
      simp only [Option.map_some', Option.some.injEq] at h
      rw [← h]
      exact SetCall.run_keeps_keys tracing ctx (SetCall.softMinValue d.GetName x)
  | setSoftMaxValueByIndex index x =>
    simp only [Operation.contextAfter, Operation.index?,
      SetMaterialPropertySoftMaxValueByIndex, nameOfIndex]
    cases hd :
        ctx.m_materialProperties.GetMaterialPropertiesLayout.GetPropertyDescriptor index with
    | none =>
      refine ⟨fun after h => ?_, fun hres => ?_⟩
      · simp at h
      · have h1 := hres index rfl
        rw [hd] at h1
        cases h1
    | some d =>
      refine ⟨fun after h => ?_, fun _ => rfl⟩
      simp only [Option.map_some', Option.some.injEq] at h
      rw [← h]
      exact SetCall.run_keeps_keys tracing ctx (SetCall.softMaxValue d.GetName x)
  | getMetadata propertyId =>
    refine ⟨fun after h => ?_, fun _ => rfl⟩
    simp only [Operation.contextAfter, Option.some.injEq] at h
    rw [← h]
    exact hrefl
  | getMetadataByIndex index =>
    simp only [Operation.contextAfter, Operation.index?, GetMaterialPropertyMetadataByIndex,
      nameOfIndex]
    cases hd :
        ctx.m_materialProperties.GetMaterialPropertiesLayout.GetPropertyDescriptor index with
    | none =>
      refine ⟨fun after h => ?_, fun hres => ?_⟩
      · simp at h
      · have h1 := hres index rfl
        rw [hd] at h1
        cases h1
    | some d =>
      refine ⟨fun after h => ?_, fun _ => rfl⟩
      simp only [Option.map_some', Option.some.injEq] at h
      rw [← h]
      exact hrefl
  | getGroupMetadata propertyId =>
    refine ⟨fun after h => ?_, fun _ => rfl⟩
    simp only [Operation.contextAfter, Option.some.injEq] at h
    rw [← h]
    exact hrefl

end EditorKeys


/-! ### Runtime context: a failed call may leave values set -/

section ShaderOptionAtomicity

open MaterialFunctor.RuntimeContext

/-- C21. `SetShaderOptionValue` is not atomic on failure: there is a shader collection map
in which an item that owns the option comes before an item that has the option without
owning it, for which the call returns false, in either build, and yet the owning item holds
the new value afterwards (1 where it held 0), the other items being as before. -/
theorem set_option_not_atomic_on_failure :
    ∃ (ctx : MaterialFunctor.RuntimeContext Int SampleOptionGroup Unit) (pipeline : Name)
      (owner unowned : ShaderCollection.Item SampleOptionGroup Unit)
      (later : ShaderCollection SampleOptionGroup Unit),
      ctx.m_allShaderCollections = [(pipeline, owner :: unowned :: later)] ∧
        owner.OwnsOption sampleApi "o_useTexture" = true ∧
        unowned.HasUnownedOption sampleApi "o_useTexture" = true ∧
        owner.m_shaderOptionGroup.values = [0] ∧
        ∀ tracing : Bool,
          (SetShaderOptionValue sampleApi tracing ctx "o_useTexture" 1).result = false ∧
            ∃ owner1,
              (SetShaderOptionValue sampleApi tracing ctx
                  "o_useTexture" 1).state.m_allShaderCollections =
                [(pipeline, owner1 :: unowned :: later)] ∧
              owner1.m_shaderOptionGroup.values = [1] := by
  refine ⟨mixedOwnershipContext, "common", sampleItem "forward" ["o_useTexture"] [some 0],
    sampleItem "depth" ["o_useTexture"] [],
    [sampleItem "shadow" ["o_other", "o_useTexture"] [some 1]], rfl, by decide, by decide, rfl,
    fun tracing => ?_⟩
  rw [setShaderOptionValue_at_first_unowned sampleApi tracing mixedOwnershipContext
    "o_useTexture" 1 [] [] "common" [sampleItem "forward" ["o_useTexture"] [some 0]]
    [sampleItem "shadow" ["o_other", "o_useTexture"] [some 1]]
    (sampleItem "depth" ["o_useTexture"] []) rfl
    (fun pair hp => absurd hp (List.not_mem_nil pair)) (by decide) (by decide)]
  exact ⟨rfl, (sampleItem "forward" ["o_useTexture"] [some 0]).applyToOwned sampleApi
    "o_useTexture" 1, rfl, by decide⟩

end ShaderOptionAtomicity

end AZ.RPI
